import Mathlib

/-!
Verification of the LSP-Asset-Mover core (src/app/page.tsx) against its
specification. The pure logic of the page — numeric string conversion
(viem parseUnits/formatUnits, JS BigInt/parseInt), the EIP-6963 provider
registry, wallet classification, the chain-switch fallback, the indexer
client with its LSP8 grouping, and the sequential transfer engine — is
embedded as executable Lean definitions. Network and wallet interaction is
represented by its observable data: HTTP responses are values, and the
signing provider is a function from the call index (the number of
eth_sendTransaction calls made so far in a run) to the call's outcome.
-/

namespace LSPAssetMover

/-! ## Decimal-string helpers (JS / viem numeric semantics) -/

/-- Decimal digit test for characters. -/
def isDigitChar (c : Char) : Bool := '0' ≤ c && c ≤ '9'

/-- Numeric value of a decimal digit character. -/
def digitVal (c : Char) : Nat := c.toNat - '0'.toNat

/-- Accumulating value of a decimal digit string, starting from `a`. -/
def digitsValFrom (a : Nat) (ds : List Char) : Nat :=
  ds.foldl (fun acc c => acc * 10 + digitVal c) a

/-- Value of a decimal digit string; the empty list denotes 0 (as JS
`BigInt('')` does). -/
def digitsVal (ds : List Char) : Nat := digitsValFrom 0 ds

/-- Fuel-driven conversion of a natural number to its decimal digits
(most significant first). The fuel is an upper bound on the number, so
the fuel-exhausted branch is unreachable; it is made structural so the
kernel can evaluate it. -/
def natDigitsGo : Nat → Nat → List Char → List Char
  | 0, n, acc => Nat.digitChar (n % 10) :: acc
  | fuel + 1, n, acc =>
    if n < 10 then Nat.digitChar n :: acc
    else natDigitsGo fuel (n / 10) (Nat.digitChar (n % 10) :: acc)

/-- Decimal digits of a natural number, most significant first. -/
def natDigits (n : Nat) : List Char := natDigitsGo n n []

/-- Decimal rendering of a natural number, as JS `String(n)` renders the
integers this module handles. -/
def natToString (n : Nat) : String := ⟨natDigits n⟩

/-- JS `String.prototype.padStart` with a single pad character, on
character lists. -/
def padStartList (ds : List Char) (len : Nat) (c : Char) : List Char :=
  List.replicate (len - ds.length) c ++ ds

/-- JS `String.prototype.padEnd` with a single pad character, on
character lists. -/
def padEndList (ds : List Char) (len : Nat) (c : Char) : List Char :=
  ds ++ List.replicate (len - ds.length) c

/-- JS `replace(/(0+)$/, '')`: drop the trailing zero characters. -/
def trimTrailingZeros (ds : List Char) : List Char :=
  (ds.reverse.dropWhile (· = '0')).reverse

/-- JS `a || d` on an optional string with a default: `null`/`undefined`
and the empty string are falsy. -/
def jsOrD (a : Option String) (d : String) : String :=
  match a with
  | none => d
  | some s => if s = "" then d else s

/-- JS `String.prototype.toLowerCase`, mapping each character through the
ASCII lower-casing (the addresses, names and reverse-domain ids this app
compares are ASCII; the full Unicode case mappings are not modelled). -/
def jsToLowerCase (s : String) : String := ⟨s.data.map Char.toLower⟩

/-- JS `BigInt(string)` on an optionally signed decimal string; `none`
models the thrown SyntaxError on other inputs (whitespace trimming and
`0x` prefixes are not modelled; the strings reaching this helper are
plain decimal). `BigInt('')` is 0 and `BigInt('-')` throws, as in JS. -/
def jsBigInt (s : String) : Option Int :=
  match s.data with
  | [] => some 0
  | '-' :: ds =>
    if ds ≠ [] && ds.all isDigitChar then some (-(digitsVal ds : Int)) else none
  | ds => if ds.all isDigitChar then some ((digitsVal ds : Int)) else none

/-- JS `parseInt` on the canonical decimal count strings this module
produces: the leading run of digits, NaN (`none`) when there is none.
Sign and whitespace handling are not needed for these inputs. -/
def jsParseInt (s : String) : Option Nat :=
  let ds := s.data.takeWhile isDigitChar
  if ds = [] then none else some (digitsVal ds)

/-- JS `String(parseInt(s) + 1)`, used by the LSP8 grouping to bump a
decimal count string. -/
def jsParseIntAdd1 (s : String) : String :=
  match jsParseInt s with
  | some n => natToString (n + 1)
  | none => "NaN"

/-- Whether the decimal fraction written by the digit list is at least one
half: models `Math.round(Number(...))` rounding up on the positive
fractional parts viem feeds it (binary-float imprecision on very long
digit runs is not modelled). An empty list (`Number` of `"d."`, or NaN
from `"."`) never rounds up. -/
def roundsUp (ds : List Char) : Bool := 10 ^ ds.length ≤ 2 * digitsVal ds

/-- The regex `^(-?)([0-9]*)\.?([0-9]*)$` guarding viem's `parseUnits`. -/
def decValid (value : String) : Bool :=
  let cs := if value.data.head? = some '-' then value.data.tail else value.data
  match cs.dropWhile isDigitChar with
  | [] => true
  | '.' :: r => r.all isDigitChar
  | _ => false

/-- viem `BigInt(integer) + 1n` rendered back to digits, as used when a
rounding carry occurs; `BigInt('')` is 0. -/
def incDigits (ds : List Char) : List Char := natDigits (digitsVal ds + 1)

/-- viem `parseUnits(value, decimals)`: parse a human-readable decimal
string into an integer scaled by `10 ^ decimals`; `none` models the throw
on a malformed number (including the final `BigInt('-')` throw). -/
def parseUnits (value : String) (decimals : Nat) : Option Int :=
  if decValid value then
    let cs := value.data
    let integer0 := match cs.findIdx? (· = '.') with
      | some i => cs.take i
      | none => cs
    let fraction0 := match cs.findIdx? (· = '.') with
      | some i => cs.drop (i + 1)
      | none => ['0']
    let negative := integer0.head? = some '-'
    let integer1 := if integer0.head? = some '-' then integer0.tail else integer0
    let fraction1 := trimTrailingZeros fraction0
    let ifr : List Char × List Char :=
      if decimals = 0 then
        (if roundsUp fraction1 then incDigits integer1 else integer1, [])
      else if decimals < fraction1.length then
        let left := fraction1.take (decimals - 1)
        let unit := digitVal (fraction1.getD (decimals - 1) '0')
        let right := fraction1.drop decimals
        let rounded := unit + (if roundsUp right then 1 else 0)
        let fraction2 :=
          if 9 < rounded then padStartList (incDigits left ++ ['0']) (left.length + 1) '0'
          else left ++ [Nat.digitChar rounded]
        let ifr2 : List Char × List Char :=
          if decimals < fraction2.length then (incDigits integer1, fraction2.tail)
          else (integer1, fraction2)
        (ifr2.1, ifr2.2.take decimals)
      else (integer1, padEndList fraction1 decimals '0')
    let ds := ifr.1 ++ ifr.2
    if negative && ds.isEmpty then none
    else some (if negative then -(digitsVal ds : Int) else (digitsVal ds : Int))
  else none

/-- viem `formatUnits(value, decimals)`: render a scaled integer as a
human-readable decimal string. -/
def formatUnits (value : Int) (decimals : Nat) : String :=
  let negative := value < 0
  let display := padStartList (natDigits value.natAbs) decimals '0'
  let integer := display.take (display.length - decimals)
  let fraction := trimTrailingZeros (display.drop (display.length - decimals))
  (if negative then "-" else "")
    ++ (if integer.isEmpty then "0" else String.mk integer)
    ++ (if fraction.isEmpty then "" else "." ++ String.mk fraction)

/-! ## Data model (src/app/page.tsx, Types section) -/

/-- The two token standards handled by the app. -/
inductive AssetType where
  | LSP7
  | LSP8
deriving DecidableEq

/-- TokenAsset (page.tsx): one discovered holding. `type` is the standard,
`balance` the raw balance decimal string, `tokenIds` the bytes32 ids for
LSP8 collections, `transferAmount` the human-readable LSP7 amount. -/
structure TokenAsset where
  address : String
  name : String
  symbol : String
  type : AssetType
  balance : String
  decimals : Nat
  selected : Bool
  iconUrl : Option String := none
  tokenIds : Option (List String) := none
  transferAmount : String
deriving DecidableEq

/-- The four per-asset transfer states of TransferStatus. -/
inductive TxState where
  | pending
  | transferring
  | success
  | error
deriving DecidableEq

/-- TransferStatus (page.tsx): per-asset record of a transfer run. -/
structure TransferStatus where
  address : String
  status : TxState
  txHash : Option String := none
  error : Option String := none
deriving DecidableEq

/-- The error object caught per asset; the handler reads the optional
`shortMessage` and `message` fields. -/
structure ProviderError where
  shortMessage : Option String := none
  message : Option String := none
deriving DecidableEq

/-- A pinned EIP-1193 signing provider, observed through its responses:
the value at `k` is the outcome of the (k+1)-th `eth_sendTransaction`
call of the run — a transaction hash, or a thrown rejection. -/
def Provider : Type := Nat → Except ProviderError String

/-- Abstract ABI calldata for the two transfer signatures built with
`encodeFunctionData` over LSP7_TRANSFER_ABI / LSP8_TRANSFER_ABI. The hex
encoding is abstracted to the injective constructor application; the
arguments named `from` and `to` in the source are `sender` and
`recipient` here because both words are reserved in Lean. -/
inductive Calldata where
  | lsp7Transfer (sender recipient : String) (amount : Int) (force : Bool) (dataBytes : String)
  | lsp8Transfer (sender recipient : String) (tokenId : String) (force : Bool) (dataBytes : String)
deriving DecidableEq

/-- The `{from, to, data}` parameter object of an `eth_sendTransaction`
request (`from`/`to` renamed to `sender`/`recipient`). -/
structure TxRequest where
  sender : String
  recipient : String
  dataField : Calldata
deriving DecidableEq

/-! ## Provider Registry (EIP-6963 discovery and classification) -/

/-- EIP6963ProviderInfo: the self-descriptor each wallet announces. -/
structure EIP6963ProviderInfo where
  uuid : String
  name : String
  icon : String
  rdns : String
deriving DecidableEq

/-- EIP6963ProviderDetail, reduced to its descriptor: the live provider
handle carried alongside plays no role in the registry claims. -/
structure EIP6963ProviderDetail where
  info : EIP6963ProviderInfo
deriving DecidableEq

/-- The announcement handler of useEIP6963Providers: `none` models an
event whose `detail?.info?.uuid` chain is absent, and an empty uuid
models a falsy one; both are ignored. A detail whose uuid is already
recorded leaves the list unchanged, otherwise it is appended. -/
def handleAnnouncement (prev : List EIP6963ProviderDetail)
    (detail : Option EIP6963ProviderDetail) : List EIP6963ProviderDetail :=
  match detail with
  | none => prev
  | some d =>
    if d.info.uuid = "" then prev
    else if prev.any (fun p => p.info.uuid = d.info.uuid) then prev
    else prev ++ [d]

/-- The registry state after a sequence of announcement events, starting
from the empty provider list. -/
def providersAfter (events : List (Option EIP6963ProviderDetail)) :
    List EIP6963ProviderDetail :=
  events.foldl handleAnnouncement []

/-- UP_FILTERS: the configured Universal-Profile classification tokens. -/
def UP_FILTERS : List String :=
  ["universalprofile", "lukso", "universal profile", "universal-profile"]

/-- Whether `needle` occurs at the start of `hay` (character lists). -/
def startsWithChars : List Char → List Char → Bool
  | _, [] => true
  | [], _ :: _ => false
  | c :: cs, d :: ds => c = d && startsWithChars cs ds

/-- JS `String.prototype.includes` on character lists: `needle` occurs
somewhere inside `hay`. -/
def includesChars : List Char → List Char → Bool
  | [], needle => needle.isEmpty
  | hay@(_ :: rest), needle => startsWithChars hay needle || includesChars rest needle

/-- JS `s.includes(sub)`. -/
def jsIncludes (s sub : String) : Bool := includesChars s.data sub.data

/-- isUPWallet (page.tsx): case-insensitive substring test against the
configured filter tokens. -/
def isUPWallet (value : String) : Bool :=
  let lower := jsToLowerCase value
  UP_FILTERS.any (fun f => jsIncludes lower f)

/-- legacyWallets: the announced providers whose rdns and name are both
not Universal-Profile-like. -/
def legacyWallets (allProviders : List EIP6963ProviderDetail) :
    List EIP6963ProviderDetail :=
  allProviders.filter (fun p => !isUPWallet p.info.rdns && !isUPWallet p.info.name)

/-! ## Session controller: chain switch and address checks -/

/-- The nativeCurrency member of the chain descriptor. -/
structure NativeCurrency where
  name : String
  symbol : String
  decimals : Nat
deriving DecidableEq

/-- The wallet_addEthereumChain descriptor shape. -/
structure ChainParams where
  chainId : String
  chainName : String
  nativeCurrency : NativeCurrency
  rpcUrls : List String
  blockExplorerUrls : List String
deriving DecidableEq

/-- LUKSO_CHAIN_PARAMS (page.tsx). -/
def LUKSO_CHAIN_PARAMS : ChainParams :=
  { chainId := "0x2a"
    chainName := "LUKSO Mainnet"
    nativeCurrency := { name := "LUKSO", symbol := "LYX", decimals := 18 }
    rpcUrls := ["https://rpc.mainnet.lukso.network"]
    blockExplorerUrls := ["https://explorer.execution.mainnet.lukso.network"] }

/-- The error object a failed wallet_switchEthereumChain request throws;
the handler only reads its optional numeric `code`. -/
structure WalletError where
  code : Option Int := none
deriving DecidableEq

/-- The two wallet requests handleSwitchToLukso can issue. -/
inductive WalletRequest where
  | switchEthereumChain (chainId : String)
  | addEthereumChain (params : ChainParams)
deriving DecidableEq

/-- handleSwitchToLukso (page.tsx), observed as the list of wallet
requests issued, in order. `none` models an absent `window.ethereum`
(the guard returns without any request); otherwise the input is the
outcome of the switch request. An error with code 4902 triggers the
add-chain fallback; any other error is rethrown into the outer catch,
which only logs. -/
def handleSwitchToLukso (ethereum : Option (Except WalletError Unit)) :
    List WalletRequest :=
  match ethereum with
  | none => []
  | some (.ok _) => [.switchEthereumChain LUKSO_CHAIN_PARAMS.chainId]
  | some (.error e) =>
    if e.code = some 4902 then
      [.switchEthereumChain LUKSO_CHAIN_PARAMS.chainId,
       .addEthereumChain LUKSO_CHAIN_PARAMS]
    else
      [.switchEthereumChain LUKSO_CHAIN_PARAMS.chainId]

/-- isSameAddress (page.tsx): case-insensitive equality, only when both
addresses are set (JS truthiness of strings: nonempty). -/
def isSameAddress (upAddress sourceAddress : String) : Bool :=
  if upAddress ≠ "" && sourceAddress ≠ "" then
    jsToLowerCase upAddress == jsToLowerCase sourceAddress
  else false

/-- The Step 2 destination-profile state touched by
handleConnectUPExtension. -/
structure UPState where
  upAddress : String
  upConnected : Bool
  upError : String
deriving DecidableEq

/-- handleConnectUPExtension (page.tsx): `none` models an absent
`window.lukso` provider; `some (.error _)` a rejected
eth_requestAccounts; `some (.ok accounts)` the returned account list.
The error text is cleared first; connecting an account equal to the
saved source address (ignoring case) is refused. -/
def handleConnectUPExtension (savedSourceAddress : String) (st : UPState)
    (luksoProvider : Option (Except Unit (List String))) : UPState :=
  let st := { st with upError := "" }
  match luksoProvider with
  | none =>
    { st with upError := "UP Browser Extension not detected. Install it from the LUKSO website or enter your Universal Profile address manually below." }
  | some (.error _) =>
    { st with upError := "Failed to connect. Please try again." }
  | some (.ok accounts) =>
    match accounts with
    | [] => st
    | upAddr :: _ =>
      if jsToLowerCase upAddr == jsToLowerCase savedSourceAddress then
        { st with upError := "This is the same address as your source wallet. Please connect a different Universal Profile." }
      else
        { st with upAddress := upAddr, upConnected := true, upError := "" }

/-! ## Indexer Client -/

/-- A GraphQL error entry; `errors[0]?.message` may be absent. -/
structure GraphQLError where
  message : Option String := none

/-- The parsed JSON body of an indexer response: a `data` payload and an
optional `errors` array (present even when empty counts as truthy, as in
the JS `if (json.errors)` check; `none` covers absent or null). -/
structure GraphQLBody (α : Type) where
  payload : α
  errors : Option (List GraphQLError) := none

/-- An indexer HTTP response, as far as queryIndexer inspects it:
`res.ok`, `res.status`, and the parsed JSON body. The network itself is
abstracted: queryIndexer is modelled as a function of the response to
the POST it sends. -/
structure HttpResponse (α : Type) where
  ok : Bool
  status : Nat
  body : GraphQLBody α

/-- queryIndexer (page.tsx): a non-success response status throws a
transport error; a present GraphQL errors array throws the first
reported message (or a generic one); otherwise `json.data` is returned. -/
def queryIndexer {α : Type} (res : HttpResponse α) : Except String α :=
  if !res.ok then .error ("Indexer request failed: " ++ natToString res.status)
  else
    match res.body.errors with
    | some errs => .error (jsOrD (errs.head?.bind (fun e => e.message)) "GraphQL error")
    | none => .ok res.body.payload

/-- The asset part of an LSP7 holding row. -/
structure LSP7AssetInfo where
  id : String
  lsp4TokenName : Option String := none
  lsp4TokenSymbol : Option String := none
  decimals : Option Nat := none
  icons : List String := []

/-- One LSP7 holding row; `asset` may be null (the row is skipped). -/
structure LSP7Hold where
  balance : String
  asset : Option LSP7AssetInfo

/-- The baseAsset part of an LSP8 holding row. -/
structure LSP8BaseAsset where
  id : String
  lsp4TokenName : Option String := none
  lsp4TokenSymbol : Option String := none
  icons : List String := []

/-- One LSP8 holding row: the compound `token_id` string
("collectionAddr-tokenId") and the collection descriptor, which may be
null (the row is skipped). -/
structure LSP8Hold where
  balance : String
  token_id : String
  baseAsset_id : String
  baseAsset : Option LSP8BaseAsset

/-- The bytes32 token id extracted from the compound token_id:
`token_id.slice(token_id.indexOf('-') + 1)`; when no separator occurs,
`indexOf` is -1 and the slice is the whole string. -/
def extractTokenId (token_id : String) : String :=
  match token_id.data.findIdx? (· = '-') with
  | some i => ⟨token_id.data.drop (i + 1)⟩
  | none => token_id

/-- The TokenAsset built from one LSP7 holding row; the `BigInt(balance)`
conversion inside the initial transferAmount computation throws on a
malformed balance string, failing the whole scan. -/
def lsp7Token (hold : LSP7Hold) (asset : LSP7AssetInfo) : Except String TokenAsset :=
  let decimals := asset.decimals.getD 18
  match jsBigInt hold.balance with
  | none => .error "Cannot convert balance to a BigInt"
  | some b =>
    .ok { address := asset.id
          name := jsOrD asset.lsp4TokenName "Unknown Token"
          symbol := jsOrD asset.lsp4TokenSymbol "???"
          type := .LSP7
          balance := hold.balance
          decimals := decimals
          selected := true
          iconUrl := asset.icons.head?
          tokenIds := none
          transferAmount := formatUnits b decimals }

/-- The LSP7 processing loop of fetchTokensForAddress: one TokenAsset per
row whose asset is present, in row order. -/
def processLSP7 : List LSP7Hold → Except String (List TokenAsset)
  | [] => .ok []
  | hold :: rest =>
    match hold.asset with
    | none => processLSP7 rest
    | some asset => do
      let t ← lsp7Token hold asset
      let ts ← processLSP7 rest
      pure (t :: ts)

/-- The fresh TokenAsset recorded when a collection is first seen. -/
def lsp8NewToken (base : LSP8BaseAsset) (tokenId : String) : TokenAsset :=
  { address := base.id
    name := jsOrD base.lsp4TokenName "Unknown NFT"
    symbol := jsOrD base.lsp4TokenSymbol "???"
    type := .LSP8
    balance := "1"
    decimals := 0
    selected := true
    iconUrl := base.icons.head?
    tokenIds := some [tokenId]
    transferAmount := "1" }

/-- One step of the LSP8 grouping loop over the `collections` map
(modelled as an insertion-ordered association list, matching JS Map
iteration order). An existing entry gets its count bumped via
`String(parseInt(balance) + 1)` and the id pushed (`tokenIds?.push`,
a no-op when tokenIds is absent); a new collection is appended. -/
def lsp8Step (collections : List (String × TokenAsset)) (hold : LSP8Hold) :
    List (String × TokenAsset) :=
  match hold.baseAsset with
  | none => collections
  | some base =>
    let collectionAddr := base.id
    let tokenId := extractTokenId hold.token_id
    if (collections.find? (fun p => p.1 = collectionAddr)).isSome then
      collections.map (fun p =>
        if p.1 = collectionAddr then
          (p.1, { p.2 with balance := jsParseIntAdd1 p.2.balance,
                           tokenIds := p.2.tokenIds.map (fun ids => ids ++ [tokenId]) })
        else p)
    else
      collections ++ [(collectionAddr, lsp8NewToken base tokenId)]

/-- The LSP8 grouping of fetchTokensForAddress: group holding rows by
collection address, collecting token ids. -/
def groupLSP8 (rows : List LSP8Hold) : List (String × TokenAsset) :=
  rows.foldl lsp8Step []

/-- fetchTokensForAddress (page.tsx), applied to the two row lists the
parallel indexer queries returned: LSP7 tokens first, then the grouped
LSP8 collections in first-encounter order. -/
def fetchTokensForAddress (lsp7Data : List LSP7Hold) (lsp8Data : List LSP8Hold) :
    Except String (List TokenAsset) := do
  let lsp7Tokens ← processLSP7 lsp7Data
  pure (lsp7Tokens ++ (groupLSP8 lsp8Data).map (fun p => p.2))

/-- The whole scan: both indexer queries must succeed (Promise.all
rejects when either rejects), then the rows are normalized. -/
def scanTokens (r7 : HttpResponse (List LSP7Hold)) (r8 : HttpResponse (List LSP8Hold)) :
    Except String (List TokenAsset) := do
  let d7 ← queryIndexer r7
  let d8 ← queryIndexer r8
  fetchTokensForAddress d7 d8

/-- The Step 2/3 state touched by handleFindAssets. -/
structure ScanState where
  assets : List TokenAsset
  transferStatuses : List TransferStatus
  step : Nat
  scanError : String
deriving DecidableEq

/-- handleFindAssets (page.tsx): guards on both addresses being set and on
the same-address check, then scans. The boolean result records whether
the indexer was queried at all. On success the ledger is replaced,
statuses cleared and the step advanced to 3; on failure only scanError
is set. -/
def handleFindAssets (sourceAddress upAddress : String) (st : ScanState)
    (scanResult : Except String (List TokenAsset)) : ScanState × Bool :=
  if sourceAddress = "" || upAddress = "" then (st, false)
  else if isSameAddress upAddress sourceAddress then
    ({ st with scanError := "Source and destination addresses are the same. Please use different wallets." }, false)
  else
    match scanResult with
    | .ok tokens =>
      ({ st with assets := tokens, transferStatuses := [], step := 3, scanError := "" }, true)
    | .error _ =>
      ({ st with scanError := "Failed to scan assets. Please try again." }, true)

/-! ## Transfer Engine -/

/-- The per-address status update pattern of handleTransferAll:
`prev.map(s => s.address === addr ? f(s) : s)`. -/
def updateStatus (addr : String) (f : TransferStatus → TransferStatus)
    (sts : List TransferStatus) : List TransferStatus :=
  sts.map (fun s => if s.address = addr then f s else s)

/-- Mark an asset's status record as transferring. -/
def setTransferring (addr : String) : List TransferStatus → List TransferStatus :=
  updateStatus addr (fun s => { s with status := .transferring })

/-- Mark an asset's status record as errored with a message. -/
def setErrorStatus (addr msg : String) : List TransferStatus → List TransferStatus :=
  updateStatus addr (fun s => { s with status := .error, error := some msg })

/-- Mark an asset's status record as succeeded with a transaction hash. -/
def setSuccessStatus (addr txHash : String) : List TransferStatus → List TransferStatus :=
  updateStatus addr (fun s => { s with status := .success, txHash := some txHash })

/-- The caught-error message: `err.shortMessage || err.message ||
'Transfer failed'` with JS falsiness on empty strings. -/
def errMessage (e : ProviderError) : String :=
  jsOrD e.shortMessage (jsOrD e.message "Transfer failed")

/-- sendViaProvider (page.tsx): one eth_sendTransaction request through
the pinned provider. Returns the provider's outcome for this call index,
the recorded `{from, to, data}` request, and the bumped call index. -/
def sendViaProvider (provider : Provider) (k : Nat) (sender recipient : String)
    (callData : Calldata) : Except ProviderError String × TxRequest × Nat :=
  (provider k, ⟨sender, recipient, callData⟩, k + 1)

/-- The inner LSP8 loop of handleTransferAll: one transfer call per token
id, sequentially; a throw stops the loop and carries the error out to
the per-asset catch. Returns the outcome (`.ok lastTxHash` when all ids
went through), the requests attempted in order, and the next call
index. -/
def lsp8Loop (provider : Provider) (src dst contractAddr : String) :
    List String → Nat → String → Except ProviderError String × List TxRequest × Nat
  | [], k, lastTxHash => (.ok lastTxHash, [], k)
  | tokenId :: rest, k, _ =>
    let callData := Calldata.lsp8Transfer src dst tokenId true "0x"
    let sent := sendViaProvider provider k src contractAddr callData
    match sent.1 with
    | .ok h =>
      let r := lsp8Loop provider src dst contractAddr rest (k + 1) h
      (r.1, sent.2.1 :: r.2.1, r.2.2)
    | .error e => (.error e, [sent.2.1], k + 1)

/-- The per-asset body of handleTransferAll's loop: mark transferring,
then run the LSP7 validation/submission or the LSP8 fan-out, updating
that asset's status. Statuses, the requests submitted for this asset,
and the call index are threaded through. An LSP8 asset with missing or
empty tokenIds falls through both branches untouched. -/
def processAsset (provider : Provider) (src dst : String) (asset : TokenAsset)
    (sts0 : List TransferStatus) (k : Nat) :
    List TransferStatus × List TxRequest × Nat :=
  let sts := setTransferring asset.address sts0
  if asset.type = .LSP7 then
    match parseUnits asset.transferAmount asset.decimals with
    | none => (setErrorStatus asset.address "Invalid amount" sts, [], k)
    | some rawAmount =>
      if rawAmount ≤ 0 then
        (setErrorStatus asset.address "Amount must be greater than 0" sts, [], k)
      else
        match jsBigInt asset.balance with
        | none =>
          -- BigInt(asset.balance) throws; the per-asset catch records the
          -- thrown TypeError's message (its exact JS text abstracted here)
          (setErrorStatus asset.address
            (errMessage { message := some "Cannot convert balance to a BigInt" }) sts, [], k)
        | some bal =>
          if bal < rawAmount then
            (setErrorStatus asset.address "Amount exceeds balance" sts, [], k)
          else
            let callData := Calldata.lsp7Transfer src dst rawAmount true "0x"
            let sent := sendViaProvider provider k src asset.address callData
            match sent.1 with
            | .ok txHash =>
              (setSuccessStatus asset.address txHash sts, [sent.2.1], k + 1)
            | .error e =>
              (setErrorStatus asset.address (errMessage e) sts, [sent.2.1], k + 1)
  else
    match asset.type, asset.tokenIds with
    | .LSP8, some (tokenId0 :: tokenIds) =>
      let r := lsp8Loop provider src dst asset.address (tokenId0 :: tokenIds) k ""
      match r.1 with
      | .ok lastTxHash =>
        (setSuccessStatus asset.address lastTxHash sts, r.2.1, r.2.2)
      | .error e =>
        (setErrorStatus asset.address (errMessage e) sts, r.2.1, r.2.2)
    | _, _ => (sts, [], k)

/-- The sequential for-loop of handleTransferAll over the selected
assets: statuses and the call index are threaded, submitted requests are
concatenated in order. -/
def runTransfers (provider : Provider) (src dst : String) :
    List TokenAsset → List TransferStatus → Nat →
    List TransferStatus × List TxRequest × Nat
  | [], sts, k => (sts, [], k)
  | asset :: rest, sts, k =>
    let r1 := processAsset provider src dst asset sts k
    let r2 := runTransfers provider src dst rest r1.1 r1.2.2
    (r2.1, r1.2.1 ++ r2.2.1, r2.2.2)

/-- handleTransferAll (page.tsx): `none` when the preconditions fail (no
resolved provider, missing address, nothing selected) — the function
returns without touching any state. Otherwise one pending status record
per selected asset is created and the assets are processed strictly
sequentially in selection order; the result is the final status list and
the submitted requests. -/
def handleTransferAll (provider : Option Provider) (sourceAddress upAddress : String)
    (assets : List TokenAsset) : Option (List TransferStatus × List TxRequest) :=
  match provider with
  | none => none
  | some provider =>
    if sourceAddress = "" || upAddress = "" then none
    else
      let selectedAssets := assets.filter (fun a => a.selected)
      if selectedAssets.length = 0 then none
      else
        let init := selectedAssets.map (fun a =>
          { address := a.address, status := .pending : TransferStatus })
        let r := runTransfers provider sourceAddress upAddress selectedAssets init 0
        some (r.1, r.2.1)

/-! ## Lemmas about the decimal rendering and parsing helpers -/

theorem natDigitsGo_eq_append (fuel : Nat) :
    ∀ n acc, natDigitsGo fuel n acc = natDigitsGo fuel n [] ++ acc := by
  induction fuel with
  | zero => intro n acc; simp [natDigitsGo]
  | succ fuel ih =>
    intro n acc
    by_cases h : n < 10
    · simp [natDigitsGo, h]
    · simp only [natDigitsGo, if_neg h]
      rw [ih (n / 10) (Nat.digitChar (n % 10) :: acc),
          ih (n / 10) [Nat.digitChar (n % 10)]]
      simp

theorem digitVal_digitChar {d : Nat} (h : d < 10) :
    digitVal (Nat.digitChar d) = d := by
  interval_cases d <;> rfl

theorem isDigitChar_digitChar {d : Nat} (h : d < 10) :
    isDigitChar (Nat.digitChar d) = true := by
  interval_cases d <;> rfl

theorem digitsValFrom_append (a : Nat) (l m : List Char) :
    digitsValFrom a (l ++ m) = digitsValFrom (digitsValFrom a l) m := by
  simp [digitsValFrom, List.foldl_append]

theorem natDigitsGo_val (fuel : Nat) :
    ∀ n, n ≤ fuel → digitsVal (natDigitsGo fuel n []) = n := by
  induction fuel with
  | zero =>
    intro n hn
    interval_cases n
    rfl
  | succ fuel ih =>
    intro n hn
    by_cases h : n < 10
    · simp only [natDigitsGo, if_pos h, digitsVal, digitsValFrom, List.foldl]
      simpa using digitVal_digitChar h
    · have h10 : (10 : Nat) ≤ n := Nat.le_of_not_lt h
      have hdiv : n / 10 ≤ fuel := by
        have : n / 10 < n := Nat.div_lt_self (by omega) (by omega)
        omega
      simp only [natDigitsGo, if_neg h]
      rw [natDigitsGo_eq_append]
      simp only [digitsVal] at ih ⊢
      rw [digitsValFrom_append, ih (n / 10) hdiv]
      simp only [digitsValFrom, List.foldl]
      rw [digitVal_digitChar (Nat.mod_lt n (by omega))]
      omega

theorem digitsVal_natDigits (n : Nat) : digitsVal (natDigits n) = n :=
  natDigitsGo_val n n (Nat.le_refl n)

theorem natDigitsGo_all_digits (fuel : Nat) :
    ∀ n, (natDigitsGo fuel n []).all isDigitChar = true := by
  induction fuel with
  | zero =>
    intro n
    simp [natDigitsGo, List.all, isDigitChar_digitChar (Nat.mod_lt n (by omega))]
  | succ fuel ih =>
    intro n
    by_cases h : n < 10
    · simp [natDigitsGo, if_pos h, List.all, isDigitChar_digitChar h]
    · simp only [natDigitsGo, if_neg h]
      rw [natDigitsGo_eq_append]
      rw [List.all_append]
      simp [ih (n / 10), List.all, isDigitChar_digitChar (Nat.mod_lt n (by omega))]

theorem natDigits_all_digits (n : Nat) : (natDigits n).all isDigitChar = true :=
  natDigitsGo_all_digits n n

theorem natDigitsGo_ne_nil (fuel n : Nat) : natDigitsGo fuel n [] ≠ [] := by
  cases fuel with
  | zero => simp [natDigitsGo]
  | succ fuel =>
    by_cases h : n < 10
    · simp [natDigitsGo, if_pos h]
    · simp only [natDigitsGo, if_neg h]
      rw [natDigitsGo_eq_append]
      simp

theorem natDigits_ne_nil (n : Nat) : natDigits n ≠ [] := natDigitsGo_ne_nil n n

theorem takeWhile_of_all {p : Char → Bool} :
    ∀ l : List Char, l.all p = true → l.takeWhile p = l := by
  intro l hl
  induction l with
  | nil => rfl
  | cons c cs ih =>
    simp only [List.all_cons, Bool.and_eq_true] at hl
    simp [List.takeWhile, hl.1, ih hl.2]

theorem jsParseInt_natToString (n : Nat) : jsParseInt (natToString n) = some n := by
  simp only [jsParseInt, natToString]
  rw [takeWhile_of_all (natDigits n) (natDigits_all_digits n)]
  simp [natDigits_ne_nil n, digitsVal_natDigits n]

theorem jsParseIntAdd1_natToString (n : Nat) :
    jsParseIntAdd1 (natToString n) = natToString (n + 1) := by
  simp [jsParseIntAdd1, jsParseInt_natToString n]

/-! ## Lemmas about substring containment -/

theorem startsWithChars_iff :
    ∀ needle hay : List Char,
      startsWithChars hay needle = true ↔ ∃ t, hay = needle ++ t := by
  intro needle
  induction needle with
  | nil =>
    intro hay
    simp [startsWithChars]
  | cons d ds ih =>
    intro hay
    cases hay with
    | nil => simp [startsWithChars]
    | cons c cs =>
      simp only [startsWithChars, Bool.and_eq_true, decide_eq_true_eq, ih cs,
        List.cons_append, List.cons.injEq]
      constructor
      · rintro ⟨rfl, t, rfl⟩
        exact ⟨t, rfl, rfl⟩
      · rintro ⟨t, rfl, rfl⟩
        exact ⟨rfl, t, rfl⟩

theorem includesChars_iff :
    ∀ hay needle : List Char,
      includesChars hay needle = true ↔ ∃ pre post, hay = pre ++ needle ++ post := by
  intro hay
  induction hay with
  | nil =>
    intro needle
    simp only [includesChars, List.isEmpty_iff]
    constructor
    · rintro rfl
      exact ⟨[], [], rfl⟩
    · rintro ⟨pre, post, h⟩
      rcases List.append_eq_nil.mp h.symm with ⟨h1, h2⟩
      rcases List.append_eq_nil.mp h1 with ⟨rfl, rfl⟩
      rfl
  | cons c cs ih =>
    intro needle
    simp only [includesChars, Bool.or_eq_true, startsWithChars_iff needle, ih needle]
    constructor
    · rintro (⟨t, h⟩ | ⟨pre, post, rfl⟩)
      · exact ⟨[], t, by simpa using h⟩
      · exact ⟨c :: pre, post, rfl⟩
    · rintro ⟨pre, post, h⟩
      cases pre with
      | nil =>
        left
        exact ⟨post, by simpa using h⟩
      | cons p ps =>
        right
        rcases (List.cons.injEq ..).mp h with ⟨rfl, h2⟩
        exact ⟨ps, post, h2⟩

theorem jsIncludes_iff (s sub : String) :
    jsIncludes s sub = true ↔ ∃ pre post, s.data = pre ++ sub.data ++ post :=
  includesChars_iff s.data sub.data

/-! ## Lemmas about the provider registry -/

theorem handleAnnouncement_duplicate (prev : List EIP6963ProviderDetail)
    (d : EIP6963ProviderDetail)
    (h : ∃ p ∈ prev, p.info.uuid = d.info.uuid) :
    handleAnnouncement prev (some d) = prev := by
  rcases h with ⟨p, hp, hpd⟩
  simp only [handleAnnouncement]
  by_cases he : d.info.uuid = ""
  · simp [he]
  · have hany : prev.any (fun q => q.info.uuid = d.info.uuid) = true := by
      simp only [List.any_eq_true, decide_eq_true_eq]
      exact ⟨p, hp, hpd⟩
    simp [he, hany]

theorem foldl_handleAnnouncement_invariant :
    ∀ (events : List EIP6963ProviderDetail) (acc : List EIP6963ProviderDetail),
      (∀ d ∈ events, d.info.uuid ≠ "") →
      (acc.map (fun p => p.info.uuid)).Nodup →
      ((((events.map some).foldl handleAnnouncement acc).map (fun p => p.info.uuid)).Nodup
      ∧ (((events.map some).foldl handleAnnouncement acc).map (fun p => p.info.uuid)).toFinset
          = (acc.map (fun p => p.info.uuid)).toFinset ∪ (events.map (fun d => d.info.uuid)).toFinset) := by
  intro events
  induction events with
  | nil =>
    intro acc _ hnd
    simp [hnd]
  | cons d rest ih =>
    intro acc hwf hnd
    have hd0 : d.info.uuid ≠ "" := hwf d (List.mem_cons_self d rest)
    have hwf' : ∀ x ∈ rest, x.info.uuid ≠ "" := fun x hx => hwf x (List.mem_cons_of_mem d hx)
    simp only [List.map_cons, List.foldl_cons]
    by_cases hdup : acc.any (fun p => p.info.uuid = d.info.uuid) = true
    · have hstep : handleAnnouncement acc (some d) = acc := by
        simp only [handleAnnouncement, if_neg hd0]
        simp [hdup]
      rw [hstep]
      rcases ih acc hwf' hnd with ⟨h1, h2⟩
      refine ⟨h1, ?_⟩
      rw [h2]
      have hmem : d.info.uuid ∈ (acc.map (fun p => p.info.uuid)).toFinset := by
        simp only [List.any_eq_true, decide_eq_true_eq] at hdup
        rcases hdup with ⟨p, hp, hpd⟩
        simp only [List.mem_toFinset, List.mem_map]
        exact ⟨p, hp, hpd⟩
      rw [List.toFinset_cons, Finset.union_insert]
      exact (Finset.insert_eq_self.mpr (Finset.mem_union_left _ hmem)).symm
    · have hstep : handleAnnouncement acc (some d) = acc ++ [d] := by
        simp only [handleAnnouncement, if_neg hd0]
        simp [hdup]
      rw [hstep]
      have hnd' : ((acc ++ [d]).map (fun p => p.info.uuid)).Nodup := by
        simp only [List.map_append, List.map_cons, List.map_nil]
        rw [List.nodup_append]
        refine ⟨hnd, List.nodup_singleton _, ?_⟩
        intro x hx
        simp only [List.mem_map] at hx
        rcases hx with ⟨p, hp, rfl⟩
        simp only [List.mem_singleton]
        intro hcontra
        apply hdup
        simp only [List.any_eq_true, decide_eq_true_eq]
        exact ⟨p, hp, hcontra⟩
      rcases ih (acc ++ [d]) hwf' hnd' with ⟨h1, h2⟩
      refine ⟨h1, ?_⟩
      rw [h2]
      simp only [List.map_append, List.toFinset_append, List.map_cons, List.map_nil,
        List.toFinset_cons, List.toFinset_nil, Finset.insert_eq, Finset.union_empty,
        Finset.union_assoc]

/-! ## Lemmas about the transfer engine -/

theorem updateStatus_getElem?_ne (addr : String) (f : TransferStatus → TransferStatus)
    (sts : List TransferStatus) (i : Nat) (st : TransferStatus)
    (hst : sts[i]? = some st) (hne : st.address ≠ addr) :
    (updateStatus addr f sts)[i]? = some st := by
  simp [updateStatus, List.getElem?_map, hst, hne]

theorem updateStatus_getElem?_eq (addr : String) (f : TransferStatus → TransferStatus)
    (sts : List TransferStatus) (i : Nat) (st : TransferStatus)
    (hst : sts[i]? = some st) (heq : st.address = addr) :
    (updateStatus addr f sts)[i]? = some (f st) := by
  simp [updateStatus, List.getElem?_map, hst, heq]

theorem updateStatus_map_address (addr : String) (f : TransferStatus → TransferStatus)
    (hf : ∀ s, (f s).address = s.address) :
    ∀ sts : List TransferStatus,
      (updateStatus addr f sts).map (fun s => s.address) = sts.map (fun s => s.address) := by
  intro sts
  induction sts with
  | nil => rfl
  | cons s rest ih =>
    simp only [updateStatus, List.map_cons] at ih ⊢
    by_cases h : s.address = addr
    · simp [h, hf, ih]
    · simp [h, ih]

theorem processAsset_fst_locality (provider : Provider) (src dst : String)
    (asset : TokenAsset) (sts : List TransferStatus) (k : Nat) (i : Nat)
    (st : TransferStatus) (hst : sts[i]? = some st) (hne : st.address ≠ asset.address) :
    ((processAsset provider src dst asset sts k).1)[i]? = some st := by
  unfold processAsset
  dsimp only [sendViaProvider, setTransferring, setErrorStatus, setSuccessStatus]
  repeat' split
  all_goals
    first
      | exact updateStatus_getElem?_ne _ _ _ _ _
          (updateStatus_getElem?_ne _ _ _ _ _ hst hne) hne
      | exact updateStatus_getElem?_ne _ _ _ _ _ hst hne

theorem processAsset_map_address (provider : Provider) (src dst : String)
    (asset : TokenAsset) (sts : List TransferStatus) (k : Nat) :
    ((processAsset provider src dst asset sts k).1).map (fun s => s.address)
      = sts.map (fun s => s.address) := by
  unfold processAsset
  dsimp only [sendViaProvider, setTransferring, setErrorStatus, setSuccessStatus]
  repeat' split
  all_goals dsimp only
  all_goals
    first
      | (rw [updateStatus_map_address, updateStatus_map_address]
         all_goals intro s
         all_goals rfl)
      | (rw [updateStatus_map_address]
         all_goals intro s
         all_goals rfl)

theorem runTransfers_fst_locality (provider : Provider) (src dst : String) :
    ∀ (assets : List TokenAsset) (sts : List TransferStatus) (k i : Nat)
      (st : TransferStatus), sts[i]? = some st →
      (∀ b ∈ assets, st.address ≠ b.address) →
      ((runTransfers provider src dst assets sts k).1)[i]? = some st := by
  intro assets
  induction assets with
  | nil => intro sts k i st hst _; exact hst
  | cons b rest ih =>
    intro sts k i st hst hall
    simp only [runTransfers]
    exact ih _ _ _ _
      (processAsset_fst_locality provider src dst b sts k i st hst
        (hall b (List.mem_cons_self b rest)))
      (fun c hc => hall c (List.mem_cons_of_mem b hc))

theorem runTransfers_map_address (provider : Provider) (src dst : String) :
    ∀ (assets : List TokenAsset) (sts : List TransferStatus) (k : Nat),
      ((runTransfers provider src dst assets sts k).1).map (fun s => s.address)
        = sts.map (fun s => s.address) := by
  intro assets
  induction assets with
  | nil => intro sts k; rfl
  | cons b rest ih =>
    intro sts k
    simp only [runTransfers]
    rw [ih, processAsset_map_address]

theorem processAsset_lsp7_invalid (provider : Provider) (src dst : String)
    (asset : TokenAsset) (sts : List TransferStatus) (k : Nat)
    (ht : asset.type = .LSP7)
    (hm : parseUnits asset.transferAmount asset.decimals = none) :
    processAsset provider src dst asset sts k =
      (setErrorStatus asset.address "Invalid amount" (setTransferring asset.address sts),
       [], k) := by
  simp only [processAsset, ht, hm]
  simp

theorem processAsset_lsp7_nonpositive (provider : Provider) (src dst : String)
    (asset : TokenAsset) (sts : List TransferStatus) (k : Nat) (m : Int)
    (ht : asset.type = .LSP7)
    (hm : parseUnits asset.transferAmount asset.decimals = some m)
    (hnp : m ≤ 0) :
    processAsset provider src dst asset sts k =
      (setErrorStatus asset.address "Amount must be greater than 0"
        (setTransferring asset.address sts), [], k) := by
  simp only [processAsset, ht, hm, if_pos hnp]
  simp

theorem processAsset_lsp7_exceeds (provider : Provider) (src dst : String)
    (asset : TokenAsset) (sts : List TransferStatus) (k : Nat) (m b : Int)
    (ht : asset.type = .LSP7)
    (hm : parseUnits asset.transferAmount asset.decimals = some m)
    (hpos : 0 < m) (hb : jsBigInt asset.balance = some b) (hlt : b < m) :
    processAsset provider src dst asset sts k =
      (setErrorStatus asset.address "Amount exceeds balance"
        (setTransferring asset.address sts), [], k) := by
  simp only [processAsset, ht, hm, hb, if_neg (by omega : ¬m ≤ 0), if_pos hlt]
  simp

theorem processAsset_lsp7_submit (provider : Provider) (src dst : String)
    (asset : TokenAsset) (sts : List TransferStatus) (k : Nat) (m b : Int)
    (ht : asset.type = .LSP7)
    (hm : parseUnits asset.transferAmount asset.decimals = some m)
    (hpos : 0 < m) (hb : jsBigInt asset.balance = some b) (hle : m ≤ b) :
    processAsset provider src dst asset sts k =
      (match provider k with
       | .ok txHash => setSuccessStatus asset.address txHash (setTransferring asset.address sts)
       | .error e => setErrorStatus asset.address (errMessage e) (setTransferring asset.address sts),
       [⟨src, asset.address, Calldata.lsp7Transfer src dst m true "0x"⟩], k + 1) := by
  simp only [processAsset, ht, hm, hb, if_neg (by omega : ¬m ≤ 0),
    if_neg (by omega : ¬b < m), sendViaProvider]
  cases provider k <;> rfl

theorem processAsset_lsp8_skip (provider : Provider) (src dst : String)
    (asset : TokenAsset) (sts : List TransferStatus) (k : Nat)
    (ht : asset.type = .LSP8)
    (hids : asset.tokenIds = none ∨ asset.tokenIds = some []) :
    processAsset provider src dst asset sts k =
      (setTransferring asset.address sts, [], k) := by
  rcases hids with h | h <;>
    simp only [processAsset, ht, h] <;>
    rw [if_neg (by decide : ¬(AssetType.LSP8 = AssetType.LSP7))]

theorem lsp8Loop_cons (provider : Provider) (src dst addr t : String)
    (rest : List String) (k : Nat) (last : String) :
    lsp8Loop provider src dst addr (t :: rest) k last =
      match provider k with
      | .ok h =>
        ((lsp8Loop provider src dst addr rest (k + 1) h).1,
         (⟨src, addr, Calldata.lsp8Transfer src dst t true "0x"⟩ : TxRequest)
           :: (lsp8Loop provider src dst addr rest (k + 1) h).2.1,
         (lsp8Loop provider src dst addr rest (k + 1) h).2.2)
      | .error e =>
        (.error e, [⟨src, addr, Calldata.lsp8Transfer src dst t true "0x"⟩], k + 1) := by
  cases hp : provider k <;> simp only [lsp8Loop, sendViaProvider, hp]

theorem lsp8Loop_all_ok (provider : Provider) (src dst addr : String) (hs : Nat → String) :
    ∀ (ids : List String) (k : Nat) (last : String), ids ≠ [] →
      (∀ i, i < ids.length → provider (k + i) = .ok (hs (k + i))) →
      lsp8Loop provider src dst addr ids k last =
        (.ok (hs (k + ids.length - 1)),
         ids.map (fun tokenId =>
           (⟨src, addr, Calldata.lsp8Transfer src dst tokenId true "0x"⟩ : TxRequest)),
         k + ids.length) := by
  intro ids
  induction ids with
  | nil => intro k last h; exact absurd rfl h
  | cons t rest ih =>
    intro k last _ hprov
    have h0 : provider k = .ok (hs k) := by
      have := hprov 0 (by simp)
      simpa using this
    cases rest with
    | nil =>
      rw [lsp8Loop_cons, h0]
      simp [lsp8Loop]
    | cons t2 rest2 =>
      have hrec := ih (k + 1) (hs k) (by simp)
        (fun i hi => by
          have := hprov (i + 1) (by simpa using Nat.succ_lt_succ hi)
          rw [show k + (i + 1) = k + 1 + i by omega] at this
          exact this)
      have hidx : k + 1 + (t2 :: rest2).length - 1 = k + (t :: t2 :: rest2).length - 1 := by
        simp only [List.length_cons]
        omega
      have hk : k + 1 + (t2 :: rest2).length = k + (t :: t2 :: rest2).length := by
        simp only [List.length_cons]
        omega
      rw [lsp8Loop_cons, h0]
      dsimp only
      rw [hrec]
      dsimp only [List.map_cons]
      rw [hidx, hk]

theorem processAsset_lsp8_all_ok (provider : Provider) (src dst : String)
    (asset : TokenAsset) (sts : List TransferStatus) (k : Nat)
    (ids : List String) (hs : Nat → String)
    (ht : asset.type = .LSP8) (hids : asset.tokenIds = some ids) (hne : ids ≠ [])
    (hprov : ∀ i, i < ids.length → provider (k + i) = .ok (hs (k + i))) :
    processAsset provider src dst asset sts k =
      (setSuccessStatus asset.address (hs (k + ids.length - 1))
         (setTransferring asset.address sts),
       ids.map (fun tokenId =>
         (⟨src, asset.address, Calldata.lsp8Transfer src dst tokenId true "0x"⟩ : TxRequest)),
       k + ids.length) := by
  cases ids with
  | nil => exact absurd rfl hne
  | cons t rest =>
    have hloop := lsp8Loop_all_ok provider src dst asset.address hs (t :: rest) k "" (by simp) hprov
    simp only [processAsset, ht, hids, hloop]
    rw [if_neg (by decide : ¬(AssetType.LSP8 = AssetType.LSP7))]

theorem handleTransferAll_some_inv (provider : Provider) (src dst : String)
    (assets : List TokenAsset) (r : List TransferStatus × List TxRequest)
    (h : handleTransferAll (some provider) src dst assets = some r) :
    src ≠ "" ∧ dst ≠ "" ∧ (assets.filter (fun a => a.selected)).length ≠ 0 ∧
    r = ((runTransfers provider src dst (assets.filter (fun a => a.selected))
            ((assets.filter (fun a => a.selected)).map (fun a =>
              { address := a.address, status := .pending })) 0).1,
         (runTransfers provider src dst (assets.filter (fun a => a.selected))
            ((assets.filter (fun a => a.selected)).map (fun a =>
              { address := a.address, status := .pending })) 0).2.1) := by
  by_cases h1 : src = ""
  · simp [handleTransferAll, h1] at h
  by_cases h2 : dst = ""
  · simp [handleTransferAll, h1, h2] at h
  by_cases h3 : (assets.filter (fun a => a.selected)).length = 0
  · simp [handleTransferAll, h1, h2, h3] at h
  · refine ⟨h1, h2, h3, ?_⟩
    simp [handleTransferAll, h1, h2, h3] at h
    exact h.symm

/-! ## Claim theorems -/

/-- Claim C1: batch isolation in the transfer engine. First, processing
one asset never touches another asset's status record (a submission error
is confined to the failing asset and the loop structurally continues with
the next selected asset). Second, in a run over three selected LSP7
assets with valid amounts where the second submission throws, the first
and third still reach Success with their own hashes, and the second is
marked Error with the caught error's short message, message, or the
generic text (via errMessage). -/
theorem c1_transfer_batch_isolation :
    (∀ (provider : Provider) (src dst : String) (asset : TokenAsset)
       (sts : List TransferStatus) (k i : Nat) (st : TransferStatus),
       sts[i]? = some st → st.address ≠ asset.address →
       ((processAsset provider src dst asset sts k).1)[i]? = some st)
    ∧
    (∀ (provider : Provider) (src dst : String) (a1 a2 a3 : TokenAsset)
       (m1 m2 m3 b1 b2 b3 : Int) (h1 h3 : String) (e : ProviderError),
       src ≠ "" → dst ≠ "" →
       a1.selected = true → a2.selected = true → a3.selected = true →
       a1.address ≠ a2.address → a1.address ≠ a3.address → a2.address ≠ a3.address →
       a1.type = .LSP7 → a2.type = .LSP7 → a3.type = .LSP7 →
       parseUnits a1.transferAmount a1.decimals = some m1 → 0 < m1 →
       jsBigInt a1.balance = some b1 → m1 ≤ b1 →
       parseUnits a2.transferAmount a2.decimals = some m2 → 0 < m2 →
       jsBigInt a2.balance = some b2 → m2 ≤ b2 →
       parseUnits a3.transferAmount a3.decimals = some m3 → 0 < m3 →
       jsBigInt a3.balance = some b3 → m3 ≤ b3 →
       provider 0 = .ok h1 → provider 1 = .error e → provider 2 = .ok h3 →
       handleTransferAll (some provider) src dst [a1, a2, a3] =
         some ([⟨a1.address, .success, some h1, none⟩,
                ⟨a2.address, .error, none, some (errMessage e)⟩,
                ⟨a3.address, .success, some h3, none⟩],
               [⟨src, a1.address, .lsp7Transfer src dst m1 true "0x"⟩,
                ⟨src, a2.address, .lsp7Transfer src dst m2 true "0x"⟩,
                ⟨src, a3.address, .lsp7Transfer src dst m3 true "0x"⟩])) := by
  constructor
  · intro provider src dst asset sts k i st h1 h2
    exact processAsset_fst_locality provider src dst asset sts k i st h1 h2
  · intro provider src dst a1 a2 a3 m1 m2 m3 b1 b2 b3 h1 h3 e
      hsrc hdst hsel1 hsel2 hsel3 h12 h13 h23 ht1 ht2 ht3
      hm1 hpos1 hb1 hle1 hm2 hpos2 hb2 hle2 hm3 hpos3 hb3 hle3 hp0 hp1 hp2
    have hfil : [a1, a2, a3].filter (fun a => a.selected) = [a1, a2, a3] := by
      simp [List.filter, hsel1, hsel2, hsel3]
    simp only [handleTransferAll, hfil]
    rw [if_neg (by simp [hsrc, hdst]), if_neg (by simp)]
    simp only [List.map_cons, List.map_nil]
    have s1 := processAsset_lsp7_submit provider src dst a1
      [{ address := a1.address, status := .pending },
       { address := a2.address, status := .pending },
       { address := a3.address, status := .pending }] 0 m1 b1 ht1 hm1 hpos1 hb1 hle1
    rw [hp0] at s1
    dsimp only at s1
    have s2 := processAsset_lsp7_submit provider src dst a2
      (setSuccessStatus a1.address h1 (setTransferring a1.address
        [{ address := a1.address, status := .pending },
         { address := a2.address, status := .pending },
         { address := a3.address, status := .pending }])) 1 m2 b2 ht2 hm2 hpos2 hb2 hle2
    rw [hp1] at s2
    dsimp only at s2
    have s3 := processAsset_lsp7_submit provider src dst a3
      (setErrorStatus a2.address (errMessage e) (setTransferring a2.address
        (setSuccessStatus a1.address h1 (setTransferring a1.address
          [{ address := a1.address, status := .pending },
           { address := a2.address, status := .pending },
           { address := a3.address, status := .pending }])))) 2 m3 b3 ht3 hm3 hpos3 hb3 hle3
    rw [hp2] at s3
    dsimp only at s3
    simp only [runTransfers, s1]
    try dsimp only
    rw [s2]
    try dsimp only
    rw [s3]
    try dsimp only
    simp only [setSuccessStatus, setErrorStatus, setTransferring, updateStatus,
      List.map_cons, List.map_nil, List.append_nil, List.cons_append, List.nil_append]
    simp [h12, h13, h23, Ne.symm h12, Ne.symm h13, Ne.symm h23]

/-- Witness for C1: a concrete three-asset run where the second
submission is rejected; the first and third succeed, the second errors
with the rejection's short message. -/
theorem c1_transfer_batch_isolation_witness :
    handleTransferAll
      (some (fun k => if k = 1 then .error { shortMessage := some "rejected", message := none }
                      else if k = 0 then .ok "0xh0" else .ok "0xh2"))
      "0xS" "0xD"
      [⟨"0xA", "T1", "T1", .LSP7, "100", 0, true, none, none, "5"⟩,
       ⟨"0xB", "T2", "T2", .LSP7, "100", 0, true, none, none, "7"⟩,
       ⟨"0xC", "T3", "T3", .LSP7, "100", 0, true, none, none, "9"⟩] =
      some ([⟨"0xA", .success, some "0xh0", none⟩,
             ⟨"0xB", .error, none, some "rejected"⟩,
             ⟨"0xC", .success, some "0xh2", none⟩],
            [⟨"0xS", "0xA", .lsp7Transfer "0xS" "0xD" 5 true "0x"⟩,
             ⟨"0xS", "0xB", .lsp7Transfer "0xS" "0xD" 7 true "0x"⟩,
             ⟨"0xS", "0xC", .lsp7Transfer "0xS" "0xD" 9 true "0x"⟩]) := by
  have h := c1_transfer_batch_isolation.2
    (fun k => if k = 1 then .error { shortMessage := some "rejected", message := none }
              else if k = 0 then .ok "0xh0" else .ok "0xh2")
    "0xS" "0xD"
    ⟨"0xA", "T1", "T1", .LSP7, "100", 0, true, none, none, "5"⟩
    ⟨"0xB", "T2", "T2", .LSP7, "100", 0, true, none, none, "7"⟩
    ⟨"0xC", "T3", "T3", .LSP7, "100", 0, true, none, none, "9"⟩
    5 7 9 100 100 100 "0xh0" "0xh2" { shortMessage := some "rejected", message := none }
    (by decide) (by decide) (by decide) (by decide) (by decide) (by decide)
    (by decide) (by decide) (by decide) (by decide) (by decide) (by decide)
    (by decide) (by decide) (by decide) (by decide) (by decide) (by decide)
    (by decide) (by decide) (by decide) (by decide) (by decide)
    (by rfl) (by rfl) (by rfl)
  exact h.trans (by decide)

/-- Claim C2: LSP7 amount validation order and outcomes in the transfer
engine. For an LSP7 asset: a parse failure yields Error "Invalid amount";
a parsed non-positive amount yields Error "Amount must be greater than
0"; a parsed positive amount exceeding the raw balance yields Error
"Amount exceeds balance"; and a valid amount submits exactly one
transaction from the source to the asset's contract address carrying
transfer(from, to, amount, force=true, data="0x") calldata with the
scaled integer amount, consuming exactly one provider call. -/
theorem c2_lsp7_amount_validation :
    ∀ (provider : Provider) (src dst : String) (asset : TokenAsset)
      (sts : List TransferStatus) (k : Nat), asset.type = .LSP7 →
      ((parseUnits asset.transferAmount asset.decimals = none →
        processAsset provider src dst asset sts k =
          (setErrorStatus asset.address "Invalid amount"
            (setTransferring asset.address sts), [], k))
      ∧ (∀ m : Int, parseUnits asset.transferAmount asset.decimals = some m → m ≤ 0 →
          processAsset provider src dst asset sts k =
            (setErrorStatus asset.address "Amount must be greater than 0"
              (setTransferring asset.address sts), [], k))
      ∧ (∀ m b : Int, parseUnits asset.transferAmount asset.decimals = some m → 0 < m →
          jsBigInt asset.balance = some b → b < m →
          processAsset provider src dst asset sts k =
            (setErrorStatus asset.address "Amount exceeds balance"
              (setTransferring asset.address sts), [], k))
      ∧ (∀ m b : Int, parseUnits asset.transferAmount asset.decimals = some m → 0 < m →
          jsBigInt asset.balance = some b → m ≤ b →
          (processAsset provider src dst asset sts k).2.1 =
            [⟨src, asset.address, .lsp7Transfer src dst m true "0x"⟩]
          ∧ (processAsset provider src dst asset sts k).2.2 = k + 1)) := by
  intro provider src dst asset sts k ht
  refine ⟨?_, ?_, ?_, ?_⟩
  · intro hm
    exact processAsset_lsp7_invalid provider src dst asset sts k ht hm
  · intro m hm hnp
    exact processAsset_lsp7_nonpositive provider src dst asset sts k m ht hm hnp
  · intro m b hm hpos hb hlt
    exact processAsset_lsp7_exceeds provider src dst asset sts k m b ht hm hpos hb hlt
  · intro m b hm hpos hb hle
    have hsub := processAsset_lsp7_submit provider src dst asset sts k m b ht hm hpos hb hle
    exact ⟨by rw [hsub], by rw [hsub]⟩

/-- Witness for C2: the four validation outcomes on concrete LSP7 assets
("abc" invalid, "0" non-positive, "5" over a balance of 3, and "2" within
a balance of 5 submitting the scaled amount). -/
theorem c2_lsp7_amount_validation_witness :
    (processAsset (fun _ => .ok "0xh") "0xS" "0xD"
        ⟨"0xA", "T", "T", .LSP7, "10", 18, true, none, none, "abc"⟩
        [⟨"0xA", .pending, none, none⟩] 0 =
      ([⟨"0xA", .error, none, some "Invalid amount"⟩], [], 0))
    ∧ (processAsset (fun _ => .ok "0xh") "0xS" "0xD"
        ⟨"0xA", "T", "T", .LSP7, "10", 18, true, none, none, "0"⟩
        [⟨"0xA", .pending, none, none⟩] 0 =
      ([⟨"0xA", .error, none, some "Amount must be greater than 0"⟩], [], 0))
    ∧ (processAsset (fun _ => .ok "0xh") "0xS" "0xD"
        ⟨"0xA", "T", "T", .LSP7, "3", 0, true, none, none, "5"⟩
        [⟨"0xA", .pending, none, none⟩] 0 =
      ([⟨"0xA", .error, none, some "Amount exceeds balance"⟩], [], 0))
    ∧ ((processAsset (fun _ => .ok "0xh") "0xS" "0xD"
        ⟨"0xA", "T", "T", .LSP7, "5", 0, true, none, none, "2"⟩
        [⟨"0xA", .pending, none, none⟩] 0).2.1 =
      [⟨"0xS", "0xA", .lsp7Transfer "0xS" "0xD" 2 true "0x"⟩]) := by
  refine ⟨?_, ?_, ?_, ?_⟩
  · exact ((c2_lsp7_amount_validation (fun _ => .ok "0xh") "0xS" "0xD"
      ⟨"0xA", "T", "T", .LSP7, "10", 18, true, none, none, "abc"⟩
      [⟨"0xA", .pending, none, none⟩] 0 (by decide)).1 (by decide)).trans (by decide)
  · exact ((c2_lsp7_amount_validation (fun _ => .ok "0xh") "0xS" "0xD"
      ⟨"0xA", "T", "T", .LSP7, "10", 18, true, none, none, "0"⟩
      [⟨"0xA", .pending, none, none⟩] 0 (by decide)).2.1 0 (by decide) (by decide)).trans
      (by decide)
  · exact ((c2_lsp7_amount_validation (fun _ => .ok "0xh") "0xS" "0xD"
      ⟨"0xA", "T", "T", .LSP7, "3", 0, true, none, none, "5"⟩
      [⟨"0xA", .pending, none, none⟩] 0 (by decide)).2.2.1 5 3 (by decide) (by decide)
      (by decide) (by decide)).trans (by decide)
  · exact ((c2_lsp7_amount_validation (fun _ => .ok "0xh") "0xS" "0xD"
      ⟨"0xA", "T", "T", .LSP7, "5", 0, true, none, none, "2"⟩
      [⟨"0xA", .pending, none, none⟩] 0 (by decide)).2.2.2 2 5 (by decide) (by decide)
      (by decide) (by decide)).1

theorem runTransfers_stuck (provider : Provider) (src dst : String) :
    ∀ (assets : List TokenAsset) (sts : List TransferStatus) (k i : Nat)
      (st : TransferStatus) (a : TokenAsset),
      a ∈ assets → (assets.map (fun x => x.address)).Nodup →
      sts[i]? = some st → st.address = a.address →
      a.type = .LSP8 → (a.tokenIds = none ∨ a.tokenIds = some []) →
      ((runTransfers provider src dst assets sts k).1)[i]?
        = some { st with status := .transferring } := by
  intro assets
  induction assets with
  | nil =>
    intro sts k i st a ha
    cases ha
  | cons b rest ih =>
    intro sts k i st a ha hnd hst haddr ht hids
    rw [List.map_cons, List.nodup_cons] at hnd
    simp only [runTransfers]
    rcases List.mem_cons.mp ha with rfl | hmem
    · rw [processAsset_lsp8_skip provider src dst a sts k ht hids]
      refine runTransfers_fst_locality provider src dst rest _ _ _ _ ?_ ?_
      · exact updateStatus_getElem?_eq _ _ _ _ _ hst haddr
      · intro c hc
        intro hcontra
        apply hnd.1
        have hceq : st.address = c.address := hcontra
        rw [haddr] at hceq
        rw [hceq]
        exact List.mem_map_of_mem _ hc
    · have hane : st.address ≠ b.address := by
        rw [haddr]
        intro hcontra
        apply hnd.1
        rw [← hcontra]
        exact List.mem_map_of_mem _ hmem
      exact ih _ _ _ _ a hmem hnd.2
        (processAsset_fst_locality provider src dst b sts k i st hst hane) haddr ht hids

/-- Claim C4: LSP8 fan-out and run bookkeeping. First, every run of
handleTransferAll produces exactly one status record per selected asset,
in selection order (the status list's addresses are the selected assets'
addresses). Second, a selected LSP8 asset holding ids submits exactly one
transfer(from, to, tokenId, force=true, data) call per id, in list
order, all to the asset's contract address, consuming one provider call
per id, and its Success record carries the hash returned for the last id
processed. -/
theorem c4_lsp8_fanout_and_statuses :
    (∀ (provider : Provider) (src dst : String) (assets : List TokenAsset)
       (sts : List TransferStatus) (txs : List TxRequest),
       handleTransferAll (some provider) src dst assets = some (sts, txs) →
       sts.map (fun s => s.address)
         = (assets.filter (fun a => a.selected)).map (fun a => a.address))
    ∧
    (∀ (provider : Provider) (src dst : String) (asset : TokenAsset)
       (sts : List TransferStatus) (k : Nat) (ids : List String) (hs : Nat → String),
       asset.type = .LSP8 → asset.tokenIds = some ids → ids ≠ [] →
       (∀ i, i < ids.length → provider (k + i) = .ok (hs (k + i))) →
       processAsset provider src dst asset sts k =
         (setSuccessStatus asset.address (hs (k + ids.length - 1))
            (setTransferring asset.address sts),
          ids.map (fun tokenId =>
            (⟨src, asset.address, .lsp8Transfer src dst tokenId true "0x"⟩ : TxRequest)),
          k + ids.length)) := by
  constructor
  · intro provider src dst assets sts txs h
    rcases handleTransferAll_some_inv provider src dst assets (sts, txs) h with
      ⟨_, _, _, hr⟩
    have hsts : sts = (runTransfers provider src dst (assets.filter (fun a => a.selected))
        ((assets.filter (fun a => a.selected)).map (fun a =>
          { address := a.address, status := .pending })) 0).1 :=
      congrArg Prod.fst hr
    rw [hsts, runTransfers_map_address, List.map_map]
    rfl
  · intro provider src dst asset sts k ids hs ht hids hne hprov
    exact processAsset_lsp8_all_ok provider src dst asset sts k ids hs ht hids hne hprov

/-- Witness for C4: a run over one selected LSP8 collection with two
token ids produces one status record with the collection's address, and
processing submits the two per-id calls with the second call's hash
recorded. -/
theorem c4_lsp8_fanout_and_statuses_witness :
    (([⟨"0xN", .success, some ("0xh" ++ natToString 1), none⟩] : List TransferStatus).map
        (fun s => s.address) = ["0xN"])
    ∧ (processAsset (fun k => .ok ("0xh" ++ natToString k)) "0xS" "0xD"
        ⟨"0xN", "N", "N", .LSP8, "2", 0, true, none, some ["0x01", "0x02"], "1"⟩
        [⟨"0xN", .pending, none, none⟩] 0 =
      ([⟨"0xN", .success, some "0xh1", none⟩],
       [⟨"0xS", "0xN", .lsp8Transfer "0xS" "0xD" "0x01" true "0x"⟩,
        ⟨"0xS", "0xN", .lsp8Transfer "0xS" "0xD" "0x02" true "0x"⟩], 2)) := by
  constructor
  · exact (c4_lsp8_fanout_and_statuses.1 (fun k => .ok ("0xh" ++ natToString k)) "0xS" "0xD"
      [⟨"0xN", "N", "N", .LSP8, "2", 0, true, none, some ["0x01", "0x02"], "1"⟩]
      [⟨"0xN", .success, some ("0xh" ++ natToString 1), none⟩]
      [⟨"0xS", "0xN", .lsp8Transfer "0xS" "0xD" "0x01" true "0x"⟩,
       ⟨"0xS", "0xN", .lsp8Transfer "0xS" "0xD" "0x02" true "0x"⟩]
      (by decide)).trans (by decide)
  · exact (c4_lsp8_fanout_and_statuses.2 (fun k => .ok ("0xh" ++ natToString k)) "0xS" "0xD"
      ⟨"0xN", "N", "N", .LSP8, "2", 0, true, none, some ["0x01", "0x02"], "1"⟩
      [⟨"0xN", .pending, none, none⟩] 0 ["0x01", "0x02"]
      (fun i => "0xh" ++ natToString i) (by decide) (by decide) (by decide)
      (by
        intro i hi
        have hi2 : i < 2 := by simpa using hi
        interval_cases i <;> rfl)).trans (by decide)

/-- Claim C10: a selected LSP8 asset whose tokenIds list is missing or
empty falls through both transfer branches: no transaction is submitted
for it and its status record, set to transferring at the start of its
iteration, is never updated again — at the end of the run it remains
transferring (never Success or Error). -/
theorem c10_lsp8_empty_tokenids_stuck :
    (∀ (provider : Provider) (src dst : String) (asset : TokenAsset)
       (sts : List TransferStatus) (k : Nat),
       asset.type = .LSP8 → (asset.tokenIds = none ∨ asset.tokenIds = some []) →
       processAsset provider src dst asset sts k = (setTransferring asset.address sts, [], k))
    ∧
    (∀ (provider : Provider) (src dst : String) (assets : List TokenAsset)
       (sts : List TransferStatus) (txs : List TxRequest) (j : Nat) (a : TokenAsset),
       handleTransferAll (some provider) src dst assets = some (sts, txs) →
       ((assets.filter (fun x => x.selected)).map (fun x => x.address)).Nodup →
       (assets.filter (fun x => x.selected))[j]? = some a →
       a.type = .LSP8 → (a.tokenIds = none ∨ a.tokenIds = some []) →
       sts[j]? = some ⟨a.address, .transferring, none, none⟩) := by
  constructor
  · intro provider src dst asset sts k ht hids
    exact processAsset_lsp8_skip provider src dst asset sts k ht hids
  · intro provider src dst assets sts txs j a h hnd hj ht hids
    rcases handleTransferAll_some_inv provider src dst assets (sts, txs) h with
      ⟨_, _, _, hr⟩
    have hsts : sts = (runTransfers provider src dst (assets.filter (fun x => x.selected))
        ((assets.filter (fun x => x.selected)).map (fun x =>
          { address := x.address, status := .pending })) 0).1 :=
      congrArg Prod.fst hr
    have hinit : (((assets.filter (fun x => x.selected)).map (fun x =>
        ({ address := x.address, status := .pending } : TransferStatus)))[j]?)
        = some { address := a.address, status := .pending } := by
      rw [List.getElem?_map, hj]
      rfl
    have hmem : a ∈ assets.filter (fun x => x.selected) := by
      rcases List.getElem?_eq_some.mp hj with ⟨hlt, hget⟩
      rw [← hget]
      exact List.getElem_mem hlt
    rw [hsts]
    exact runTransfers_stuck provider src dst _ _ 0 j
      { address := a.address, status := .pending } a hmem hnd hinit rfl ht hids

/-- Witness for C10: a run over one selected LSP8 asset with an empty
tokenIds list ends with that asset still in the transferring state. -/
theorem c10_lsp8_empty_tokenids_stuck_witness :
    (processAsset (fun _ => .ok "0xh") "0xS" "0xD"
        ⟨"0xN", "N", "N", .LSP8, "2", 0, true, none, some [], "1"⟩
        [⟨"0xN", .pending, none, none⟩] 0 =
      ([⟨"0xN", .transferring, none, none⟩], [], 0))
    ∧ (([⟨"0xN", .transferring, none, none⟩] : List TransferStatus)[0]?
        = some ⟨"0xN", .transferring, none, none⟩) := by
  constructor
  · exact (c10_lsp8_empty_tokenids_stuck.1 (fun _ => .ok "0xh") "0xS" "0xD"
      ⟨"0xN", "N", "N", .LSP8, "2", 0, true, none, some [], "1"⟩
      [⟨"0xN", .pending, none, none⟩] 0 (by decide) (Or.inr (by decide))).trans (by decide)
  · exact c10_lsp8_empty_tokenids_stuck.2 (fun _ => .ok "0xh") "0xS" "0xD"
      [⟨"0xN", "N", "N", .LSP8, "2", 0, true, none, some [], "1"⟩]
      [⟨"0xN", .transferring, none, none⟩] [] 0
      ⟨"0xN", "N", "N", .LSP8, "2", 0, true, none, some [], "1"⟩
      (by decide) (by decide) (by decide) (by decide) (Or.inr (by decide))

/-! ## Lemmas about the LSP8 grouping of the Indexer Client -/

/-- The collection address announced by each row whose baseAsset is
present, in row order (with repetitions). -/
def lsp8RowCollections (rows : List LSP8Hold) : List String :=
  rows.filterMap (fun h => h.baseAsset.map (fun b => b.id))

/-- The token ids extracted from the rows of one collection, in
row-encounter order. -/
def collectionTokenIds (rows : List LSP8Hold) (addr : String) : List String :=
  rows.filterMap (fun h =>
    match h.baseAsset with
    | some b => if b.id = addr then some (extractTokenId h.token_id) else none
    | none => none)

/-- The LSP8-typed assets of a scan result. -/
def lsp8AssetsOf (tokens : List TokenAsset) : List TokenAsset :=
  tokens.filter (fun t => t.type = .LSP8)

/-- The invariant carried by the grouping fold: keys are distinct, keys
are exactly the collections seen so far, and each entry holds the
collection's ids in encounter order with the count string. -/
def AccInv (rows : List LSP8Hold) (acc : List (String × TokenAsset)) : Prop :=
  (acc.map Prod.fst).Nodup
  ∧ (∀ addr, addr ∈ acc.map Prod.fst ↔ addr ∈ lsp8RowCollections rows)
  ∧ (∀ p ∈ acc, p.2.address = p.1 ∧ p.2.type = .LSP8
      ∧ p.2.tokenIds = some (collectionTokenIds rows p.1)
      ∧ p.2.balance = natToString (collectionTokenIds rows p.1).length)

theorem lsp8RowCollections_append_none (rows : List LSP8Hold) (h : LSP8Hold)
    (hb : h.baseAsset = none) :
    lsp8RowCollections (rows ++ [h]) = lsp8RowCollections rows := by
  simp [lsp8RowCollections, List.filterMap_append, hb]

theorem lsp8RowCollections_append_some (rows : List LSP8Hold) (h : LSP8Hold)
    (base : LSP8BaseAsset) (hb : h.baseAsset = some base) :
    lsp8RowCollections (rows ++ [h]) = lsp8RowCollections rows ++ [base.id] := by
  simp [lsp8RowCollections, List.filterMap_append, hb]

theorem collectionTokenIds_append_none (rows : List LSP8Hold) (h : LSP8Hold)
    (addr : String) (hb : h.baseAsset = none) :
    collectionTokenIds (rows ++ [h]) addr = collectionTokenIds rows addr := by
  simp [collectionTokenIds, List.filterMap_append, hb]

theorem collectionTokenIds_append_eq (rows : List LSP8Hold) (h : LSP8Hold)
    (base : LSP8BaseAsset) (hb : h.baseAsset = some base) :
    collectionTokenIds (rows ++ [h]) base.id
      = collectionTokenIds rows base.id ++ [extractTokenId h.token_id] := by
  simp [collectionTokenIds, List.filterMap_append, hb]

theorem collectionTokenIds_append_ne (rows : List LSP8Hold) (h : LSP8Hold)
    (base : LSP8BaseAsset) (addr : String) (hb : h.baseAsset = some base)
    (hne : base.id ≠ addr) :
    collectionTokenIds (rows ++ [h]) addr = collectionTokenIds rows addr := by
  simp [collectionTokenIds, List.filterMap_append, hb, hne]

theorem collectionTokenIds_nil_of_not_mem (rows : List LSP8Hold) (addr : String)
    (hnm : addr ∉ lsp8RowCollections rows) :
    collectionTokenIds rows addr = [] := by
  rw [collectionTokenIds, List.filterMap_eq_nil_iff]
  intro h hh
  cases hb : h.baseAsset with
  | none => simp [hb]
  | some base =>
    simp only [hb]
    by_cases he : base.id = addr
    · exfalso
      apply hnm
      simp only [lsp8RowCollections, List.mem_filterMap]
      exact ⟨h, hh, by simp [hb, he]⟩
    · simp [he]

theorem find?_isSome_iff_mem_keys (acc : List (String × TokenAsset)) (addr : String) :
    (acc.find? (fun p => p.1 = addr)).isSome = true ↔ addr ∈ acc.map Prod.fst := by
  rw [List.find?_isSome]
  constructor
  · rintro ⟨p, hp, hpd⟩
    simp only [decide_eq_true_eq] at hpd
    exact hpd ▸ List.mem_map_of_mem _ hp
  · intro hm
    rcases List.mem_map.mp hm with ⟨p, hp, rfl⟩
    exact ⟨p, hp, by simp⟩

theorem accInv_step (rows : List LSP8Hold) (acc : List (String × TokenAsset))
    (h : LSP8Hold) (hinv : AccInv rows acc) : AccInv (rows ++ [h]) (lsp8Step acc h) := by
  obtain ⟨hnd, hmem, hent⟩ := hinv
  cases hb : h.baseAsset with
  | none =>
    refine ⟨?_, ?_, ?_⟩ <;> simp only [lsp8Step, hb]
    · exact hnd
    · intro addr
      rw [lsp8RowCollections_append_none rows h hb]
      exact hmem addr
    · intro p hp
      rw [collectionTokenIds_append_none rows h _ hb]
      exact hent p hp
  | some base =>
    by_cases hfind : (acc.find? (fun p => p.1 = base.id)).isSome = true
    · -- existing collection: the entry is updated in place
      have hkey : base.id ∈ acc.map Prod.fst := (find?_isSome_iff_mem_keys acc base.id).mp hfind
      have hstep : lsp8Step acc h = acc.map (fun p =>
          if p.1 = base.id then
            (p.1,
             { p.2 with
                balance := jsParseIntAdd1 p.2.balance,
                tokenIds := p.2.tokenIds.map (fun ids => ids ++ [extractTokenId h.token_id]) })
          else p) := by
        simp only [lsp8Step, hb, hfind, if_true]
      have hkeys : (lsp8Step acc h).map Prod.fst = acc.map Prod.fst := by
        rw [hstep, List.map_map]
        apply List.map_congr_left
        intro p _
        by_cases hp : p.1 = base.id <;> simp [hp]
      refine ⟨?_, ?_, ?_⟩
      · rw [hkeys]; exact hnd
      · intro addr
        rw [hkeys, lsp8RowCollections_append_some rows h base hb]
        rw [List.mem_append, List.mem_singleton]
        constructor
        · intro hm
          exact Or.inl ((hmem addr).mp hm)
        · rintro (hm | rfl)
          · exact (hmem addr).mpr hm
          · exact hkey
      · intro q hq
        rw [hstep] at hq
        rcases List.mem_map.mp hq with ⟨p, hp, rfl⟩
        obtain ⟨hpa, hpt, hpids, hpbal⟩ := hent p hp
        by_cases hpk : p.1 = base.id
        · rw [if_pos hpk]
          refine ⟨hpa, hpt, ?_, ?_⟩
          · show Option.map _ p.2.tokenIds = _
            rw [hpids, hpk, collectionTokenIds_append_eq rows h base hb]
            rfl
          · show jsParseIntAdd1 p.2.balance = _
            rw [hpbal, hpk, collectionTokenIds_append_eq rows h base hb,
              jsParseIntAdd1_natToString, List.length_append, List.length_cons,
              List.length_nil]
        · rw [if_neg hpk]
          rw [collectionTokenIds_append_ne rows h base p.1 hb (fun hcc => hpk hcc.symm)]
          exact ⟨hpa, hpt, hpids, hpbal⟩
    · -- new collection: appended at the end with count 1
      have hkey : base.id ∉ acc.map Prod.fst := fun hm =>
        hfind ((find?_isSome_iff_mem_keys acc base.id).mpr hm)
      have hstep : lsp8Step acc h
          = acc ++ [(base.id, lsp8NewToken base (extractTokenId h.token_id))] := by
        simp [lsp8Step, hb, hfind]
      have hnocoll : base.id ∉ lsp8RowCollections rows := fun hm => hkey ((hmem base.id).mpr hm)
      have hnil : collectionTokenIds rows base.id = [] :=
        collectionTokenIds_nil_of_not_mem rows base.id hnocoll
      refine ⟨?_, ?_, ?_⟩
      · rw [hstep, List.map_append]
        simp only [List.map_cons, List.map_nil]
        rw [List.nodup_append]
        exact ⟨hnd, List.nodup_singleton _, by
          intro x hx
          simp only [List.mem_singleton]
          intro hxx
          exact hkey (hxx ▸ hx)⟩
      · intro addr
        rw [hstep, List.map_append, lsp8RowCollections_append_some rows h base hb]
        simp only [List.map_cons, List.map_nil, List.mem_append, List.mem_singleton]
        constructor
        · rintro (hm | rfl)
          · exact Or.inl ((hmem addr).mp hm)
          · exact Or.inr rfl
        · rintro (hm | rfl)
          · exact Or.inl ((hmem addr).mpr hm)
          · exact Or.inr rfl
      · intro q hq
        rw [hstep] at hq
        rcases List.mem_append.mp hq with hq | hq
        · obtain ⟨hpa, hpt, hpids, hpbal⟩ := hent q hq
          have hqk : base.id ≠ q.1 := by
            intro hcc
            exact hkey (hcc ▸ List.mem_map_of_mem _ hq)
          rw [collectionTokenIds_append_ne rows h base q.1 hb hqk]
          exact ⟨hpa, hpt, hpids, hpbal⟩
        · simp only [List.mem_singleton] at hq
          subst hq
          rw [collectionTokenIds_append_eq rows h base hb, hnil]
          refine ⟨rfl, rfl, rfl, ?_⟩
          simp only [List.nil_append, List.length_cons, List.length_nil]
          show ("1" : String) = natToString 1
          decide

theorem accInv_foldl (rest : List LSP8Hold) :
    ∀ (processed : List LSP8Hold) (acc : List (String × TokenAsset)),
      AccInv processed acc → AccInv (processed ++ rest) (rest.foldl lsp8Step acc) := by
  induction rest with
  | nil =>
    intro processed acc hinv
    simpa using hinv
  | cons h rest2 ih =>
    intro processed acc hinv
    have hstep := accInv_step processed acc h hinv
    have := ih (processed ++ [h]) (lsp8Step acc h) hstep
    simpa using this

theorem groupLSP8_inv (rows : List LSP8Hold) : AccInv rows (groupLSP8 rows) := by
  have hbase : AccInv [] [] := by
    refine ⟨List.nodup_nil, ?_, ?_⟩
    · intro addr
      simp [lsp8RowCollections]
    · intro p hp
      cases hp
  have := accInv_foldl rows [] [] hbase
  simpa [groupLSP8] using this

theorem lsp7Token_type (hold : LSP7Hold) (asset : LSP7AssetInfo) (t : TokenAsset)
    (h : lsp7Token hold asset = .ok t) : t.type = .LSP7 := by
  unfold lsp7Token at h
  cases hb : jsBigInt hold.balance with
  | none => rw [hb] at h; cases h
  | some b =>
    rw [hb] at h
    cases h
    rfl

theorem processLSP7_types :
    ∀ (rows : List LSP7Hold) (ts : List TokenAsset), processLSP7 rows = .ok ts →
      ∀ t ∈ ts, t.type = .LSP7 := by
  intro rows
  induction rows with
  | nil =>
    intro ts h t ht
    cases h
    cases ht
  | cons hold rest ih =>
    intro ts h t ht
    rw [processLSP7] at h
    cases hh : hold.asset with
    | none =>
      rw [hh] at h
      exact ih ts h t ht
    | some asset =>
      rw [hh] at h
      dsimp only at h
      cases hb : lsp7Token hold asset with
      | error e =>
        rw [hb] at h
        simp only [bind, Except.bind] at h
        exact Except.noConfusion h
      | ok t0 =>
        rw [hb] at h
        cases hr : processLSP7 rest with
        | error e =>
          rw [hr] at h
          simp only [bind, Except.bind] at h
          exact Except.noConfusion h
        | ok ts' =>
          rw [hr] at h
          simp only [bind, Except.bind, pure, Except.pure, Except.ok.injEq] at h
          subst h
          rcases List.mem_cons.mp ht with rfl | hmem
          · exact lsp7Token_type hold asset t hb
          · exact ih ts' hr t hmem

theorem fetchTokens_split (lsp7Data : List LSP7Hold) (lsp8Data : List LSP8Hold)
    (tokens : List TokenAsset)
    (h : fetchTokensForAddress lsp7Data lsp8Data = .ok tokens) :
    ∃ ts7, processLSP7 lsp7Data = .ok ts7
      ∧ tokens = ts7 ++ (groupLSP8 lsp8Data).map (fun p => p.2) := by
  unfold fetchTokensForAddress at h
  cases h7 : processLSP7 lsp7Data with
  | error e => rw [h7] at h; cases h
  | ok ts7 =>
    rw [h7] at h
    cases h
    exact ⟨ts7, rfl, rfl⟩

theorem lsp8AssetsOf_fetch (lsp7Data : List LSP7Hold) (lsp8Data : List LSP8Hold)
    (tokens : List TokenAsset)
    (h : fetchTokensForAddress lsp7Data lsp8Data = .ok tokens) :
    lsp8AssetsOf tokens = (groupLSP8 lsp8Data).map (fun p => p.2) := by
  rcases fetchTokens_split lsp7Data lsp8Data tokens h with ⟨ts7, h7, rfl⟩
  unfold lsp8AssetsOf
  rw [List.filter_append]
  have h1 : ts7.filter (fun t => t.type = .LSP8) = [] := by
    rw [List.filter_eq_nil_iff]
    intro t ht
    have := processLSP7_types lsp7Data ts7 h7 t ht
    simp [this]
  have h2 : ((groupLSP8 lsp8Data).map (fun p => p.2)).filter (fun t => t.type = .LSP8)
      = (groupLSP8 lsp8Data).map (fun p => p.2) := by
    rw [List.filter_eq_self]
    intro t ht
    rcases List.mem_map.mp ht with ⟨p, hp, rfl⟩
    obtain ⟨_, hpt, _, _⟩ := (groupLSP8_inv lsp8Data).2.2 p hp
    simp [hpt]
  rw [h1, h2, List.nil_append]

/-- Claim C3: LSP8 grouping invariant of the Indexer Client. For every
scan result, the LSP8 assets have pairwise-distinct collection
addresses; an LSP8 asset exists for an address exactly when some holding
row announces that collection; and each LSP8 asset's tokenIds list holds
the id extracted from each of that collection's rows in row-encounter
order, with the balance string equal to the decimal count of those rows
(so tokenIds.length equals the balance parsed back as an integer). -/
theorem c3_lsp8_grouping :
    ∀ (lsp7Data : List LSP7Hold) (lsp8Data : List LSP8Hold) (tokens : List TokenAsset),
      fetchTokensForAddress lsp7Data lsp8Data = .ok tokens →
      (((lsp8AssetsOf tokens).map (fun t => t.address)).Nodup
      ∧ (∀ addr, addr ∈ (lsp8AssetsOf tokens).map (fun t => t.address)
          ↔ addr ∈ lsp8RowCollections lsp8Data)
      ∧ (∀ t ∈ lsp8AssetsOf tokens,
          t.tokenIds = some (collectionTokenIds lsp8Data t.address)
          ∧ t.balance = natToString (collectionTokenIds lsp8Data t.address).length
          ∧ jsParseInt t.balance = some (collectionTokenIds lsp8Data t.address).length)) := by
  intro lsp7Data lsp8Data tokens h
  obtain ⟨hnd, hmem, hent⟩ := groupLSP8_inv lsp8Data
  have hfetch := lsp8AssetsOf_fetch lsp7Data lsp8Data tokens h
  have haddr : (lsp8AssetsOf tokens).map (fun t => t.address)
      = (groupLSP8 lsp8Data).map Prod.fst := by
    rw [hfetch, List.map_map]
    apply List.map_congr_left
    intro p hp
    exact (hent p hp).1
  refine ⟨?_, ?_, ?_⟩
  · rw [haddr]; exact hnd
  · intro addr
    rw [haddr]
    exact hmem addr
  · intro t ht
    rw [hfetch] at ht
    rcases List.mem_map.mp ht with ⟨p, hp, rfl⟩
    obtain ⟨hpa, _, hpids, hpbal⟩ := hent p hp
    rw [hpa, hpids, hpbal]
    exact ⟨rfl, rfl, jsParseInt_natToString _⟩

/-- Witness for C3: two rows of the same collection with different token
ids yield one LSP8 asset with both ids in encounter order and balance
"2". -/
theorem c3_lsp8_grouping_witness :
    ((lsp8AssetsOf [⟨"0xc", "Unknown NFT", "???", .LSP8, "2", 0, true, none,
        some ["0xaa", "0xbb"], "1"⟩]).map (fun t => t.address)).Nodup
    ∧ (∀ addr, addr ∈ (lsp8AssetsOf [⟨"0xc", "Unknown NFT", "???", .LSP8, "2", 0, true, none,
        some ["0xaa", "0xbb"], "1"⟩]).map (fun t => t.address)
        ↔ addr ∈ lsp8RowCollections
            [⟨"1", "0xc-0xaa", "0xc", some ⟨"0xc", none, none, []⟩⟩,
             ⟨"1", "0xc-0xbb", "0xc", some ⟨"0xc", none, none, []⟩⟩])
    ∧ (∀ t ∈ lsp8AssetsOf [⟨"0xc", "Unknown NFT", "???", .LSP8, "2", 0, true, none,
        some ["0xaa", "0xbb"], "1"⟩],
        t.tokenIds = some (collectionTokenIds
            [⟨"1", "0xc-0xaa", "0xc", some ⟨"0xc", none, none, []⟩⟩,
             ⟨"1", "0xc-0xbb", "0xc", some ⟨"0xc", none, none, []⟩⟩] t.address)
        ∧ t.balance = natToString (collectionTokenIds
            [⟨"1", "0xc-0xaa", "0xc", some ⟨"0xc", none, none, []⟩⟩,
             ⟨"1", "0xc-0xbb", "0xc", some ⟨"0xc", none, none, []⟩⟩] t.address).length
        ∧ jsParseInt t.balance = some (collectionTokenIds
            [⟨"1", "0xc-0xaa", "0xc", some ⟨"0xc", none, none, []⟩⟩,
             ⟨"1", "0xc-0xbb", "0xc", some ⟨"0xc", none, none, []⟩⟩] t.address).length) :=
  c3_lsp8_grouping []
    [⟨"1", "0xc-0xaa", "0xc", some ⟨"0xc", none, none, []⟩⟩,
     ⟨"1", "0xc-0xbb", "0xc", some ⟨"0xc", none, none, []⟩⟩]
    [⟨"0xc", "Unknown NFT", "???", .LSP8, "2", 0, true, none, some ["0xaa", "0xbb"], "1"⟩]
    (by rfl)

/-- Claim C5: scan failure atomicity. A non-success HTTP status makes
queryIndexer throw a transport error naming the status; a present
GraphQL errors array in a successful response throws the first reported
message; a successful scan requires both parallel queries to have
succeeded (either failure aborts the whole scan); and on a scan failure
handleFindAssets leaves the asset ledger and the step unchanged. -/
theorem c5_scan_failure_atomicity :
    (∀ (α : Type) (res : HttpResponse α), res.ok = false →
       queryIndexer res = .error ("Indexer request failed: " ++ natToString res.status))
    ∧ (∀ (α : Type) (res : HttpResponse α) (errs : List GraphQLError) (msg : String),
       res.ok = true → res.body.errors = some errs →
       errs.head? = some { message := some msg } → msg ≠ "" →
       queryIndexer res = .error msg)
    ∧ (∀ (r7 : HttpResponse (List LSP7Hold)) (r8 : HttpResponse (List LSP8Hold))
         (tokens : List TokenAsset),
       scanTokens r7 r8 = .ok tokens →
       (∃ d7, queryIndexer r7 = .ok d7) ∧ (∃ d8, queryIndexer r8 = .ok d8))
    ∧ (∀ (src up : String) (st : ScanState) (e : String) (st' : ScanState) (b : Bool),
       handleFindAssets src up st (.error e) = (st', b) →
       st'.assets = st.assets ∧ st'.step = st.step) := by
  refine ⟨?_, ?_, ?_, ?_⟩
  · intro α res hok
    simp [queryIndexer, hok]
  · intro α res errs msg hok herrs hhead hne
    simp [queryIndexer, hok, herrs, hhead, jsOrD, hne]
  · intro r7 r8 tokens h
    unfold scanTokens at h
    cases h7 : queryIndexer r7 with
    | error e =>
      rw [h7] at h
      simp only [bind, Except.bind] at h
      exact Except.noConfusion h
    | ok d7 =>
      rw [h7] at h
      cases h8 : queryIndexer r8 with
      | error e =>
        rw [h8] at h
        simp only [bind, Except.bind] at h
        exact Except.noConfusion h
      | ok d8 => exact ⟨⟨d7, rfl⟩, ⟨d8, rfl⟩⟩
  · intro src up st e st' b h
    unfold handleFindAssets at h
    split at h
    · cases h
      exact ⟨rfl, rfl⟩
    · split at h
      · cases h
        exact ⟨rfl, rfl⟩
      · cases h
        exact ⟨rfl, rfl⟩

/-- Witness for C5: a 500 response throws the transport error; a GraphQL
errors array throws its first message; an all-success pair of responses
lets the scan return; and a failed scan leaves a concrete ledger and
step untouched while setting the retryable message. -/
theorem c5_scan_failure_atomicity_witness :
    ((queryIndexer (⟨false, 500, ⟨[], none⟩⟩ : HttpResponse (List LSP7Hold)))
      = .error "Indexer request failed: 500")
    ∧ ((queryIndexer (⟨true, 200, ⟨[], some [⟨some "boom"⟩]⟩⟩ : HttpResponse (List LSP7Hold)))
      = .error "boom")
    ∧ ((∃ d7, queryIndexer (⟨true, 200, ⟨[], none⟩⟩ : HttpResponse (List LSP7Hold)) = .ok d7)
      ∧ (∃ d8, queryIndexer (⟨true, 200, ⟨[], none⟩⟩ : HttpResponse (List LSP8Hold)) = .ok d8))
    ∧ (({ assets := [⟨"0xA", "T", "T", .LSP7, "1", 0, true, none, none, "1"⟩],
          transferStatuses := [], step := 2,
          scanError := "Failed to scan assets. Please try again." } : ScanState).assets
        = ({ assets := [⟨"0xA", "T", "T", .LSP7, "1", 0, true, none, none, "1"⟩],
             transferStatuses := [], step := 2, scanError := "" } : ScanState).assets
      ∧ ({ assets := [⟨"0xA", "T", "T", .LSP7, "1", 0, true, none, none, "1"⟩],
           transferStatuses := [], step := 2,
           scanError := "Failed to scan assets. Please try again." } : ScanState).step
        = ({ assets := [⟨"0xA", "T", "T", .LSP7, "1", 0, true, none, none, "1"⟩],
             transferStatuses := [], step := 2, scanError := "" } : ScanState).step) := by
  refine ⟨?_, ?_, ?_, ?_⟩
  · exact (c5_scan_failure_atomicity.1 (List LSP7Hold)
      ⟨false, 500, ⟨[], none⟩⟩ rfl).trans (by rfl)
  · exact c5_scan_failure_atomicity.2.1 (List LSP7Hold)
      ⟨true, 200, ⟨[], some [⟨some "boom"⟩]⟩⟩
      [⟨some "boom"⟩] "boom" rfl rfl rfl (by decide)
  · exact c5_scan_failure_atomicity.2.2.1
      ⟨true, 200, ⟨[], none⟩⟩ ⟨true, 200, ⟨[], none⟩⟩ [] (by rfl)
  · exact c5_scan_failure_atomicity.2.2.2 "0xS" "0xD"
      { assets := [⟨"0xA", "T", "T", .LSP7, "1", 0, true, none, none, "1"⟩],
        transferStatuses := [], step := 2, scanError := "" } "network down"
      { assets := [⟨"0xA", "T", "T", .LSP7, "1", 0, true, none, none, "1"⟩],
        transferStatuses := [], step := 2,
        scanError := "Failed to scan assets. Please try again." } true (by rfl)

/-- Claim C6: chain-switch fallback. Every invocation against a present
provider issues the wallet_switchEthereumChain request for 0x2a first;
the wallet_addEthereumChain fallback is issued exactly once, with the
full LUKSO descriptor, precisely when the switch failed with code 4902;
any other outcome produces no add-chain request. The descriptor carries
chain id 0x2a, currency LYX with 18 decimals, one RPC URL and one
explorer URL. -/
theorem c6_chain_switch_fallback :
    (∀ r : Except WalletError Unit,
       (handleSwitchToLukso (some r)).head? = some (.switchEthereumChain "0x2a"))
    ∧ (∀ e : WalletError, e.code = some 4902 →
       handleSwitchToLukso (some (.error e)) =
         [.switchEthereumChain "0x2a", .addEthereumChain LUKSO_CHAIN_PARAMS])
    ∧ (∀ (r : Except WalletError Unit) (p : ChainParams),
       WalletRequest.addEthereumChain p ∈ handleSwitchToLukso (some r) ↔
         (∃ e, r = .error e ∧ e.code = some 4902 ∧ p = LUKSO_CHAIN_PARAMS))
    ∧ (LUKSO_CHAIN_PARAMS.chainId = "0x2a"
       ∧ LUKSO_CHAIN_PARAMS.nativeCurrency.symbol = "LYX"
       ∧ LUKSO_CHAIN_PARAMS.nativeCurrency.decimals = 18
       ∧ LUKSO_CHAIN_PARAMS.rpcUrls.length = 1
       ∧ LUKSO_CHAIN_PARAMS.blockExplorerUrls.length = 1) := by
  refine ⟨?_, ?_, ?_, ?_⟩
  · intro r
    cases r with
    | ok u => rfl
    | error e =>
      by_cases hc : e.code = some 4902 <;> simp [handleSwitchToLukso, LUKSO_CHAIN_PARAMS, hc]
  · intro e hc
    simp [handleSwitchToLukso, LUKSO_CHAIN_PARAMS, hc]
  · intro r p
    cases r with
    | ok u =>
      simp [handleSwitchToLukso]
    | error e =>
      by_cases hc : e.code = some 4902
      · simp [handleSwitchToLukso, hc]
      · simp [handleSwitchToLukso, hc]
  · exact ⟨rfl, rfl, rfl, rfl, rfl⟩

/-- Witness for C6: an error with code 4902 produces exactly the
switch-then-add trace; a switch that succeeds puts the switch request
first and issues no add. -/
theorem c6_chain_switch_fallback_witness :
    (handleSwitchToLukso (some (.error { code := some 4902 })) =
      [.switchEthereumChain "0x2a", .addEthereumChain LUKSO_CHAIN_PARAMS])
    ∧ ((handleSwitchToLukso (some (.ok ()))).head? = some (.switchEthereumChain "0x2a"))
    ∧ ¬(WalletRequest.addEthereumChain LUKSO_CHAIN_PARAMS
        ∈ handleSwitchToLukso (some (.error { code := some 100 }))) := by
  refine ⟨?_, ?_, ?_⟩
  · exact c6_chain_switch_fallback.2.1 { code := some 4902 } (by decide)
  · exact c6_chain_switch_fallback.1 (.ok ())
  · intro hmem
    rcases (c6_chain_switch_fallback.2.2.1 (.error { code := some 100 })
      LUKSO_CHAIN_PARAMS).mp hmem with ⟨e, he, hc, _⟩
    cases he
    exact absurd hc (by decide)

/-- Claim C7: source/destination distinctness. The equality check is
case-insensitive and only applies when both addresses are set;
connecting a UP extension account equal (ignoring case) to the saved
source address is refused with an error and does not connect; and
handleFindAssets refuses to scan when the destination equals the source
ignoring case — it sets the error, does not query the indexer, and does
not advance the step. -/
theorem c7_source_destination_distinctness :
    (∀ up src : String, up ≠ "" → src ≠ "" →
       (isSameAddress up src = true ↔ jsToLowerCase up = jsToLowerCase src))
    ∧ (∀ (saved : String) (st : UPState) (upAddr : String) (rest : List String),
       jsToLowerCase upAddr = jsToLowerCase saved →
       handleConnectUPExtension saved st (some (.ok (upAddr :: rest))) =
         { st with upError := "This is the same address as your source wallet. Please connect a different Universal Profile." })
    ∧ (∀ (src up : String) (st : ScanState) (res : Except String (List TokenAsset)),
       src ≠ "" → up ≠ "" → jsToLowerCase up = jsToLowerCase src →
       handleFindAssets src up st res =
         ({ st with scanError := "Source and destination addresses are the same. Please use different wallets." }, false)) := by
  refine ⟨?_, ?_, ?_⟩
  · intro up src h1 h2
    simp [isSameAddress, h1, h2]
  · intro saved st upAddr rest heq
    simp [handleConnectUPExtension, heq]
  · intro src up st res h1 h2 h3
    have hsame : isSameAddress up src = true := by
      simp [isSameAddress, h1, h2, h3]
    simp [handleFindAssets, h1, h2, hsame]

/-- Witness for C7: two addresses differing only in case are treated as
equal; connecting the saved source address through the UP extension is
refused; and a scan with destination equal to the source ignoring case
is blocked without querying. -/
theorem c7_source_destination_distinctness_witness :
    (isSameAddress "0xAbCd" "0xaBcD" = true ↔
      jsToLowerCase "0xAbCd" = jsToLowerCase "0xaBcD")
    ∧ (handleConnectUPExtension "0xAbCd" ⟨"", false, ""⟩ (some (.ok ["0xABCD"])) =
        ⟨"", false, "This is the same address as your source wallet. Please connect a different Universal Profile."⟩)
    ∧ (handleFindAssets "0xAbCd" "0xABCD"
        { assets := [], transferStatuses := [], step := 2, scanError := "" } (.ok []) =
        ({ assets := [], transferStatuses := [], step := 2,
           scanError := "Source and destination addresses are the same. Please use different wallets." }, false)) := by
  refine ⟨?_, ?_, ?_⟩
  · exact c7_source_destination_distinctness.1 "0xAbCd" "0xaBcD" (by decide) (by decide)
  · exact (c7_source_destination_distinctness.2.1 "0xAbCd" ⟨"", false, ""⟩ "0xABCD" []
      (by decide)).trans (by decide)
  · exact (c7_source_destination_distinctness.2.2 "0xAbCd" "0xABCD"
      { assets := [], transferStatuses := [], step := 2, scanError := "" } (.ok [])
      (by decide) (by decide) (by decide)).trans (by decide)

/-- Claim C8: provider registry deduplication. An announcement whose uuid
is already recorded leaves the registry unchanged (first announcement
wins), and over any sequence of well-formed announcements the registry's
size equals the number of distinct uuids seen. -/
theorem c8_provider_dedup :
    (∀ (prev : List EIP6963ProviderDetail) (d : EIP6963ProviderDetail),
       (∃ p ∈ prev, p.info.uuid = d.info.uuid) →
       handleAnnouncement prev (some d) = prev)
    ∧ (∀ events : List EIP6963ProviderDetail,
       (∀ d ∈ events, d.info.uuid ≠ "") →
       (providersAfter (events.map some)).length
         = (events.map (fun d => d.info.uuid)).toFinset.card) := by
  constructor
  · intro prev d h
    exact handleAnnouncement_duplicate prev d h
  · intro events hwf
    obtain ⟨hnd, hset⟩ := foldl_handleAnnouncement_invariant events [] hwf (by simp)
    simp only [providersAfter]
    rw [← List.length_map ((events.map some).foldl handleAnnouncement [])
      (fun p => p.info.uuid)]
    rw [← List.toFinset_card_of_nodup hnd, hset]
    simp

/-- Witness for C8: a duplicate announcement is dropped, and a sequence
with one repeated uuid yields a registry of size two. -/
theorem c8_provider_dedup_witness :
    (handleAnnouncement [⟨⟨"u1", "W1", "i", "com.w1"⟩⟩] (some ⟨⟨"u1", "W1 again", "j", "com.w1b"⟩⟩)
      = [⟨⟨"u1", "W1", "i", "com.w1"⟩⟩])
    ∧ (providersAfter ([⟨⟨"u1", "W1", "i", "com.w1"⟩⟩, ⟨⟨"u2", "W2", "i", "com.w2"⟩⟩,
        ⟨⟨"u1", "W1 again", "j", "com.w1b"⟩⟩].map some)).length = 2 := by
  constructor
  · exact c8_provider_dedup.1 [⟨⟨"u1", "W1", "i", "com.w1"⟩⟩] ⟨⟨"u1", "W1 again", "j", "com.w1b"⟩⟩
      ⟨⟨⟨"u1", "W1", "i", "com.w1"⟩⟩, by decide, by decide⟩
  · exact (c8_provider_dedup.2 [⟨⟨"u1", "W1", "i", "com.w1"⟩⟩, ⟨⟨"u2", "W2", "i", "com.w2"⟩⟩,
      ⟨⟨"u1", "W1 again", "j", "com.w1b"⟩⟩] (by decide)).trans (by decide)

/-- Claim C9: UP classification is case-insensitive and substring-based —
true exactly when the lower-cased string contains one of the configured
tokens — and a provider is excluded from the legacy-wallet list exactly
when its rdns or display name is so classified; rdns "io.lukso.up" is
classified UP and "io.metamask" is not. -/
theorem c9_up_classification :
    (∀ s : String, isUPWallet s = true ↔
       ∃ f ∈ UP_FILTERS, ∃ pre post, (jsToLowerCase s).data = pre ++ f.data ++ post)
    ∧ (∀ (allProviders : List EIP6963ProviderDetail) (p : EIP6963ProviderDetail),
       p ∈ legacyWallets allProviders ↔
         p ∈ allProviders ∧ isUPWallet p.info.rdns = false ∧ isUPWallet p.info.name = false)
    ∧ isUPWallet "io.lukso.up" = true ∧ isUPWallet "io.metamask" = false := by
  refine ⟨?_, ?_, ?_, ?_⟩
  · intro s
    simp only [isUPWallet, List.any_eq_true]
    constructor
    · rintro ⟨f, hf, hinc⟩
      exact ⟨f, hf, (jsIncludes_iff _ _).mp hinc⟩
    · rintro ⟨f, hf, pre, post, hdec⟩
      exact ⟨f, hf, (jsIncludes_iff _ _).mpr ⟨pre, post, hdec⟩⟩
  · intro allProviders p
    simp [legacyWallets, List.mem_filter]
  · decide
  · decide

/-- Witness for C9: "io.lukso.up" contains a configured token after
lower-casing, and the MetaMask provider stays in the legacy list while a
UP-extension provider is excluded. -/
theorem c9_up_classification_witness :
    (∃ f ∈ UP_FILTERS, ∃ pre post, (jsToLowerCase "io.lukso.up").data = pre ++ f.data ++ post)
    ∧ (⟨⟨"u2", "MetaMask", "i", "io.metamask"⟩⟩ ∈ legacyWallets
        [⟨⟨"u1", "Universal Profiles", "i", "io.lukso.up"⟩⟩,
         ⟨⟨"u2", "MetaMask", "i", "io.metamask"⟩⟩]) := by
  constructor
  · exact (c9_up_classification.1 "io.lukso.up").mp (by decide)
  · exact (c9_up_classification.2.1
      [⟨⟨"u1", "Universal Profiles", "i", "io.lukso.up"⟩⟩,
       ⟨⟨"u2", "MetaMask", "i", "io.metamask"⟩⟩]
      ⟨⟨"u2", "MetaMask", "i", "io.metamask"⟩⟩).mpr ⟨by decide, by decide, by decide⟩

end LSPAssetMover
